import Mathlib

/-!
# ai-image-restorer: the restoration endpoint, the restorer and the cleanup sweep

A shallow embedding of `src/utils/imageRestorer.js`, `src/server.js` and the
history list of `src/public/script.js`.

* Strings are Lean strings, byte buffers are lists of naturals below 256.
* The file system is the pair of directories the program touches (`uploads`
  and `public/results`); a directory is the list of its entries in listing
  order, and a path is a directory together with an entry name.
* `Date.now()` is an integer number of milliseconds, `mtimeMs` is a rational
  (Node reports it with a fractional part).
* The generative model is a function handed to `restoreImage`; it either throws
  or returns the parts of the first candidate.
* Console output is left out, except that the sweep reports which paths it
  cleaned and the error it caught.
-/

namespace ImageRestorer

/-! ## Prompt builder (`createRestorationPrompt`) -/

/-- The constant `basePrompt` of `createRestorationPrompt`. -/
def basePrompt : String :=
  "Generate a restored version of this image that maintains all the important content but"

/-- The function `createRestorationPrompt(mode)`: a `switch` on the mode with
four named cases and a `default` branch. -/
def createRestorationPrompt (mode : String) : String :=
  if mode = "remove_distractions" then
    basePrompt ++
      " removes all distracting visual elements, text overlays, and unnecessary markings. \n" ++
      "      Focus on making the image look clean and professional as if it was originally captured without any visual noise or overlays.\n" ++
      "      Preserve the original subject, colors, and composition but eliminate any visual elements that appear artificially added.\n" ++
      "      Ensure the restored areas blend naturally with the surrounding image content."
  else if mode = "fix_artifacts" then
    basePrompt ++
      " fixes any visual artifacts, text overlays, or markings that detract from the image quality.\n" ++
      "      Remove any artificial elements including graphical overlays, visible stamps, or repeating patterns that appear to be added after the image was taken.\n" ++
      "      Reconstruct the underlying image content naturally to match the surrounding areas in texture and color.\n" ++
      "      The final result should look like a clean, professional photograph without any post-capture additions."
  else if mode = "enhance_clarity" then
    basePrompt ++
      " enhances overall clarity by removing any noise, text elements, or visual distractions.\n" ++
      "      Remove anything that appears superimposed on the original photograph, including text, logos, or semi-transparent elements.\n" ++
      "      Seamlessly restore any areas that were covered by visual noise or add-ons, maintaining consistent lighting and texture.\n" ++
      "      The result should appear as a pristine version of the original photograph with no extraneous elements."
  else if mode = "deep_restoration" then
    basePrompt ++
      " performs a complete restoration by removing all non-original elements from the image.\n" ++
      "      Eliminate any and all artificially added elements, including text overlays, logos, stamps, graphical elements, or repetitive patterns.\n" ++
      "      Perfectly reconstruct the underlying image content where these elements were present, ensuring natural continuation of textures, colors, and patterns.\n" ++
      "      Make the image look completely natural as if nothing was ever added to the original photograph.\n" ++
      "      Pay special attention to corner elements and semi-transparent overlays, ensuring they are completely removed."
  else
    basePrompt ++
      " improves the overall quality by removing distractions and enhancing clarity.\n" ++
      "      Remove any elements that appear to be artificially added to the original photograph.\n" ++
      "      Restore the image to how it would have looked if captured without any post-processing additions."

deriving instance DecidableEq for Except

/-! ## Byte buffers and base64 (`Buffer`) -/

/-- The base64 alphabet of RFC 4648. -/
def base64Alphabet : List Char :=
  "ABCDEFGHIJKLMNOPQRSTUVWXYZabcdefghijklmnopqrstuvwxyz0123456789+/".toList

/-- The character of a six-bit value. -/
def base64Char (n : Nat) : Char := base64Alphabet.getD n 'A'

/-- Padded base64 text of a byte list, three bytes to four characters. -/
def toBase64Chars : List Nat → List Char
  | [] => []
  | [a] => [base64Char (a / 4), base64Char (a % 4 * 16), '=', '=']
  | [a, b] => [base64Char (a / 4), base64Char (a % 4 * 16 + b / 16), base64Char (b % 16 * 4), '=']
  | a :: b :: c :: rest =>
    base64Char (a / 4) :: base64Char (a % 4 * 16 + b / 16) ::
      base64Char (b % 16 * 4 + c / 64) :: base64Char (c % 64) :: toBase64Chars rest

/-- The call `buffer.toString("base64")`. -/
def toBase64 (bytes : List Nat) : String := String.mk (toBase64Chars bytes)

/-- The six-bit value of a base64 character; the URL-safe `-` and `_` are
accepted like `+` and `/`, every other character has no value. -/
def base64Value (c : Char) : Option Nat :=
  if 'A' ≤ c ∧ c ≤ 'Z' then some (c.toNat - 65)
  else if 'a' ≤ c ∧ c ≤ 'z' then some (c.toNat - 97 + 26)
  else if '0' ≤ c ∧ c ≤ '9' then some (c.toNat - 48 + 52)
  else if c = '+' ∨ c = '-' then some 62
  else if c = '/' ∨ c = '_' then some 63
  else none

/-- Bytes of a list of six-bit values, four values to three bytes; a trailing
group of two or three values gives one or two bytes. -/
def fromSextets : List Nat → List Nat
  | a :: b :: c :: d :: rest =>
    (a * 4 + b / 16) :: (b % 16 * 16 + c / 4) :: (c % 4 * 64 + d) :: fromSextets rest
  | [a, b, c] => [a * 4 + b / 16, b % 16 * 16 + c / 4]
  | [a, b] => [a * 4 + b / 16]
  | _ => []

/-- The call `Buffer.from(s, "base64")` of the Node library: on RFC 4648 text
it is the standard decoding; characters outside the alphabet are skipped and
decoding stops at the first padding character. The empty string decodes to the
empty buffer. -/
def bufferFromBase64 (s : String) : List Nat :=
  fromSextets ((s.toList.takeWhile (fun c => c != '=')).filterMap base64Value)

/-! ## Paths (`path.extname`, `getMimeType`) -/

/-- The loop variables of Node's `path.extname` (POSIX flavour). -/
structure ExtnameState where
  startDot : Int
  startPart : Int
  endIdx : Int
  matchedSlash : Bool
  preDotState : Int
  stopped : Bool
deriving DecidableEq

/-- One iteration of the backwards loop of `path.extname` at index `i` with
character `c`; `stopped` records the `break`. -/
def extnameStep (st : ExtnameState) (ic : Nat × Char) : ExtnameState :=
  if st.stopped then st
  else if ic.2 = '/' then
    if !st.matchedSlash then { st with startPart := ic.1 + 1, stopped := true } else st
  else
    let st1 := if st.endIdx = -1 then { st with matchedSlash := false, endIdx := ic.1 + 1 } else st
    if ic.2 = '.' then
      if st1.startDot = -1 then { st1 with startDot := ic.1 }
      else if st1.preDotState ≠ 1 then { st1 with preDotState := 1 } else st1
    else if st1.startDot ≠ -1 then { st1 with preDotState := -1 } else st1

/-- The library function `path.extname` of Node (POSIX flavour): the text from
the last dot of the last path component to its end, and the empty string when
that component has no dot, starts with its only dot, or is `..`. -/
def extname (path : String) : String :=
  let cs := path.toList
  let st := (cs.enum.reverse).foldl extnameStep ⟨-1, 0, -1, true, 0, false⟩
  if st.startDot = -1 ∨ st.endIdx = -1 ∨ st.preDotState = 0 ∨
      (st.preDotState = 1 ∧ st.startDot = st.endIdx - 1 ∧ st.startDot = st.startPart + 1) then ""
  else String.mk ((cs.take st.endIdx.toNat).drop st.startDot.toNat)

/-- The function `getMimeType(filePath)`. Lower-casing is done on ASCII
letters, which agrees with JavaScript on the three extensions compared. -/
def getMimeType (filePath : String) : String :=
  let ext := String.mk ((extname filePath).toList.map Char.toLower)
  if ext = ".jpg" ∨ ext = ".jpeg" then "image/jpeg"
  else if ext = ".png" then "image/png"
  else "application/octet-stream"

/-! ## The file store (`fs`) -/

/-- An entry of a directory. `statFails` and `unlinkFails` say whether the
operating system refuses `stat` or `unlink` on it (a dangling link, a
sub-directory, missing permissions). -/
structure File where
  name : String
  data : List Nat
  mtimeMs : Rat
  statFails : Bool
  unlinkFails : Bool
deriving DecidableEq

/-- The two directories of the program: `uploads` and `public/results`. -/
inductive Store where
  | uploads
  | results
deriving DecidableEq

/-- A path inside one of the two directories, as built by `path.join`. -/
structure Path where
  store : Store
  name : String
deriving DecidableEq

/-- The path as text, relative to `__dirname`. -/
def Path.toString (p : Path) : String :=
  match p.store with
  | .uploads => "uploads/" ++ p.name
  | .results => "public/results/" ++ p.name

/-- The state of the file system: each directory is absent (`none`) or holds
its entries in listing order. -/
structure Stores where
  uploads : Option (List File)
  results : Option (List File)
deriving DecidableEq

/-- The entries of a directory, `none` when it does not exist. -/
def Stores.dir (s : Stores) : Store → Option (List File)
  | .uploads => s.uploads
  | .results => s.results

/-- Replace the entries of a directory. -/
def Stores.setDir (s : Stores) (d : Store) (l : List File) : Stores :=
  match d with
  | .uploads => { s with uploads := some l }
  | .results => { s with results := some l }

/-- The entry of a given name in a listing. -/
def findEntry (name : String) (l : List File) : Option File :=
  l.find? (fun f => decide (f.name = name))

/-- The listing without the entries of a given name. -/
def removeEntry (name : String) (l : List File) : List File :=
  l.filter (fun f => !decide (f.name = name))

/-- The listing after writing `data` under `name` at time `t`: an existing
entry keeps its place and gets the new content and time, a new entry is added
at the end. -/
def putEntry (t : Rat) (name : String) (data : List Nat) (l : List File) : List File :=
  match findEntry name l with
  | some _ => l.map (fun f => if f.name = name then { f with data := data, mtimeMs := t } else f)
  | none => l ++ [⟨name, data, t, false, false⟩]

/-- The entry at a path, if the directory and the entry exist. -/
def Stores.lookup (s : Stores) (p : Path) : Option File :=
  (s.dir p.store).bind (findEntry p.name)

/-- A file store is well formed when no directory lists a name twice. -/
def Stores.WellFormed (s : Stores) : Prop :=
  ((s.uploads.getD []).map File.name).Nodup ∧ ((s.results.getD []).map File.name).Nodup

instance (s : Stores) : Decidable s.WellFormed :=
  inferInstanceAs (Decidable (_ ∧ _))

/-- The call `fs.existsSync(path)`. -/
def existsSync (p : Path) (s : Stores) : Bool := (s.lookup p).isSome

/-- The call `fs.readFileSync(path)`: the content, or a thrown `ENOENT`. -/
def readFileSync (p : Path) (s : Stores) : Except String (List Nat) :=
  match s.lookup p with
  | some f => .ok f.data
  | none => .error ("ENOENT: no such file or directory, open " ++ p.toString)

/-- The call `fs.writeFileSync(path, buffer)` at clock reading `t`: throws
`ENOENT` when the directory does not exist, and writes the entry otherwise. -/
def writeFileSync (t : Rat) (p : Path) (data : List Nat) (s : Stores) : Except String Stores :=
  match s.dir p.store with
  | none => .error ("ENOENT: no such file or directory, open " ++ p.toString)
  | some l => .ok (s.setDir p.store (putEntry t p.name data l))

/-- The call `fs.unlinkSync(path)`: throws when the entry does not exist or
refuses to be unlinked, and removes it otherwise. -/
def unlinkSync (p : Path) (s : Stores) : Except String Stores :=
  match s.dir p.store with
  | none => .error ("ENOENT: no such file or directory, unlink " ++ p.toString)
  | some l =>
    match findEntry p.name l with
    | none => .error ("ENOENT: no such file or directory, unlink " ++ p.toString)
    | some f =>
      if f.unlinkFails then .error ("EPERM: operation not permitted, unlink " ++ p.toString)
      else .ok (s.setDir p.store (removeEntry p.name l))

/-- The call `fs.statSync(path)`: throws when the entry does not exist or
refuses to be examined, and returns the entry (for its `mtimeMs`) otherwise. -/
def statSync (p : Path) (s : Stores) : Except String File :=
  match s.lookup p with
  | none => .error ("ENOENT: no such file or directory, stat " ++ p.toString)
  | some f =>
    if f.statFails then .error ("EACCES: permission denied, stat " ++ p.toString)
    else .ok f

/-- The call `fs.readdirSync(dir)` on an existing directory: the names. -/
def readdirSync (l : List File) : List String := l.map File.name

/-! ## The restorer (`restoreImage`) -/

/-- A part of the model response: `inlineData` holds the base64 text of
`part.inlineData.data` when the part carries an image, `text` the text. -/
structure Part where
  inlineData : Option String
  text : Option String
deriving DecidableEq

/-- The prompt parts handed to `model.generateContent`: the inline image
(MIME type and base64 data) and the instruction text. -/
structure Call where
  mimeType : String
  data : String
  text : String
deriving DecidableEq

/-- The generative model: `generateContent` throws, or answers with
`response.candidates[0].content.parts`. -/
abbrev GenerativeModel := Call → Except String (List Part)

/-- The `for` loop of `restoreImage` over the response parts, at clock reading
`t`: every part with `inlineData` is decoded and written to `outputPath` and
sets `imageGenerated`; other parts are only logged. The file store reached
is returned together with the flag or the thrown error. -/
def writeParts (t : Rat) (outputPath : Path) :
    List Part → Stores → Bool → Stores × Except String Bool
  | [], s, imageGenerated => (s, .ok imageGenerated)
  | part :: rest, s, imageGenerated =>
    match part.inlineData with
    | some generatedImageData =>
      match writeFileSync t outputPath (bufferFromBase64 generatedImageData) s with
      | .error e => (s, .error e)
      | .ok s1 => writeParts t outputPath rest s1 true
    | none => writeParts t outputPath rest s imageGenerated

/-- What a call of `restoreImage` leaves behind: the file store, the requests
sent to the model, and the returned path or the thrown error message. -/
structure RestoreResult where
  stores : Stores
  calls : List Call
  result : Except String Path
deriving DecidableEq

/-- The function `restoreImage(inputImagePath, restorationMode, outputPath)`,
run on file store `s` with the writes stamped `t`. -/
def restoreImage (model : GenerativeModel) (t : Rat) (inputImagePath : Path)
    (restorationMode : String) (outputPath : Path) (s : Stores) : RestoreResult :=
  match readFileSync inputImagePath s with
  | .error e => ⟨s, [], .error e⟩
  | .ok imageData =>
    let imageBase64 := toBase64 imageData
    let mimeType := getMimeType inputImagePath.toString
    let enhancedPrompt := createRestorationPrompt restorationMode
    let promptParts : Call := ⟨mimeType, imageBase64, enhancedPrompt⟩
    match model promptParts with
    | .error e => ⟨s, [promptParts], .error e⟩
    | .ok parts =>
      match writeParts t outputPath parts s false with
      | (s1, .error e) => ⟨s1, [promptParts], .error e⟩
      | (s1, .ok imageGenerated) =>
        if !imageGenerated then
          ⟨s1, [promptParts], .error "No image was generated in the response"⟩
        else
          match unlinkSync inputImagePath s1 with
          | .ok s2 => ⟨s2, [promptParts], .ok outputPath⟩
          | .error _ => ⟨s1, [promptParts], .ok outputPath⟩

/-! ## The upload middleware (`multer`) -/

/-- The `fileFilter` callback: the original name must match
`/\.(jpg|jpeg|png)$/`, that is, end in one of the three extensions. -/
def fileFilter (originalname : String) : Bool :=
  ".jpg".toList.isSuffixOf originalname.toList ||
  ".jpeg".toList.isSuffixOf originalname.toList ||
  ".png".toList.isSuffixOf originalname.toList

/-- The `filename` callback of the disk storage: `upload-`, the clock reading,
a dash, the rounded random number, and the extension of the original name. -/
def storageFilename (now : Int) (rand : Nat) (originalname : String) : String :=
  let uniqueSuffix := toString now ++ "-" ++ toString rand
  let ext := extname originalname
  "upload-" ++ uniqueSuffix ++ ext

/-- The option `limits.fileSize`. -/
def fileSizeLimit : Nat := 10 * 1024 * 1024

/-- An uploaded file part: its original name and its bytes. -/
structure Upload where
  originalname : String
  bytes : List Nat
deriving DecidableEq

/-- The middleware `upload.single("image")` with this disk storage: without a
file part `req.file` stays undefined; a file the filter refuses or one above
the size limit is an error and nothing is stored; otherwise the `destination`
callback creates `uploads` when missing and the bytes are stored under the
generated name, which becomes `req.file.filename`. -/
def uploadSingle (now : Int) (rand : Nat) (t : Rat) (u : Option Upload) (s : Stores) :
    Stores × Except String (Option String) :=
  match u with
  | none => (s, .ok none)
  | some u =>
    if !fileFilter u.originalname then (s, .error "Only JPG, JPEG, and PNG files are allowed")
    else
      let s1 := s.setDir .uploads (s.uploads.getD [])
      if u.bytes.length > fileSizeLimit then (s1, .error "File too large")
      else
        let filename := storageFilename now rand u.originalname
        match writeFileSync t ⟨.uploads, filename⟩ u.bytes s1 with
        | .ok s2 => (s2, .ok (some filename))
        | .error e => (s1, .error e)

/-! ## The endpoint (`POST /api/restore`) -/

/-- The request as the handler sees it: `req.file.filename` when a file was
uploaded (its path is that name inside `uploads`), and
`req.body.restorationMode` when the field was sent. -/
structure Request where
  file : Option String
  restorationMode : Option String
deriving DecidableEq

/-- A JSON response body: the success shape or the error shape. -/
inductive Body where
  | success (imageUrl : String)
  | error (error : String) (details : Option String)
deriving DecidableEq

/-- A response: status code and body. -/
structure Response where
  status : Nat
  body : Body
deriving DecidableEq

/-- What handling a request leaves behind: the file store, the requests sent
to the model, how often `restoreImage` was called, and the response. -/
structure HandlerResult where
  stores : Stores
  calls : List Call
  restoreCalls : Nat
  response : Response
deriving DecidableEq

/-- The name of the result file: `restored-`, the clock reading, `.png`. -/
def outputFilename (now : Int) : String := "restored-" ++ toString now ++ ".png"

/-- The handler of `POST /api/restore`, at clock reading `now`, with the writes
of `restoreImage` stamped `t`. -/
def apiRestore (model : GenerativeModel) (now : Int) (t : Rat) (req : Request) (s : Stores) :
    HandlerResult :=
  match req.file with
  | none => ⟨s, [], 0, ⟨400, .error "No image uploaded" none⟩⟩
  | some filename =>
    let imagePath : Path := ⟨.uploads, filename⟩
    match req.restorationMode with
    | none => ⟨s, [], 0, ⟨400, .error "No restoration mode provided" none⟩⟩
    | some restorationMode =>
      if restorationMode = "" then ⟨s, [], 0, ⟨400, .error "No restoration mode provided" none⟩⟩
      else
        let outputPath : Path := ⟨.results, outputFilename now⟩
        let r := restoreImage model t imagePath restorationMode outputPath s
        match r.result with
        | .ok _ => ⟨r.stores, r.calls, 1, ⟨200, .success ("/results/" ++ outputFilename now)⟩⟩
        | .error message =>
          let s1 :=
            if existsSync imagePath r.stores then
              match unlinkSync imagePath r.stores with
              | .ok s2 => s2
              | .error _ => r.stores
            else r.stores
          ⟨s1, r.calls, 1, ⟨500, .error "Failed to process image" (some message)⟩⟩

/-! ## The cleanup sweep (`setInterval` callback) -/

/-- What one run of the sweep leaves behind: the file store, the paths it
reported as cleaned, and the error it caught and logged, if any. -/
structure SweepResult where
  stores : Stores
  cleaned : List Path
  error : Option String
deriving DecidableEq

/-- The `forEach` over the names returned by `readdirSync` for directory `d`:
each entry is examined and, when its `mtimeMs` is below `oneHourAgo`,
unlinked and reported. A throwing `statSync` or `unlinkSync` ends the whole
run; the error goes to the `catch` of the callback. -/
def sweepEntries (oneHourAgo : Int) (d : Store) :
    List String → Stores → List Path → SweepResult
  | [], s, cleaned => ⟨s, cleaned, none⟩
  | file :: rest, s, cleaned =>
    let filePath : Path := ⟨d, file⟩
    match statSync filePath s with
    | .error e => ⟨s, cleaned, some e⟩
    | .ok stats =>
      if stats.mtimeMs < (oneHourAgo : Rat) then
        match unlinkSync filePath s with
        | .error e => ⟨s, cleaned, some e⟩
        | .ok s1 => sweepEntries oneHourAgo d rest s1 (cleaned ++ [filePath])
      else sweepEntries oneHourAgo d rest s cleaned

/-- The cleanup of one directory: skipped when `existsSync` is false. -/
def sweepStore (oneHourAgo : Int) (d : Store) (s : Stores) (cleaned : List Path) : SweepResult :=
  match s.dir d with
  | none => ⟨s, cleaned, none⟩
  | some l => sweepEntries oneHourAgo d (readdirSync l) s cleaned

/-- The cleanup callback at clock reading `now`: the uploads directory, then
the results directory, inside one `try` whose `catch` logs the error. -/
def sweep (now : Int) (s : Stores) : SweepResult :=
  let oneHourAgo := now - 60 * 60 * 1000
  let r := sweepStore oneHourAgo .uploads s []
  match r.error with
  | some _ => r
  | none => sweepStore oneHourAgo .results r.stores r.cleaned

/-! ## The client history (`public/script.js`) -/

/-- A history record, as built in `resultImage.onload`: `id` is `Date.now()`,
`restorationMode` is the selected mode (`null` when none is selected). -/
structure Restoration where
  id : Int
  originalImageDataUrl : String
  restoredImageUrl : String
  restorationMode : Option String
  timestamp : String
deriving DecidableEq

/-- The update of `restorations` in `resultImage.onload`: `unshift` of the new
record, then `slice(0, 20)` when the length exceeds 20. -/
def addRestoration (newRestoration : Restoration) (restorations : List Restoration) :
    List Restoration :=
  let unshifted := newRestoration :: restorations
  if unshifted.length > 20 then unshifted.take 20 else unshifted

/-- The update of `restorations` in the `history-delete` click handler:
`filter` on `item.id !== itemId`. -/
def deleteRestoration (itemId : Int) (restorations : List Restoration) : List Restoration :=
  restorations.filter (fun item => item.id != itemId)

/-- The two events that change `restorations`. -/
inductive HistoryEvent where
  | add (newRestoration : Restoration)
  | delete (itemId : Int)
deriving DecidableEq

/-- The list after one event. -/
def historyStep (restorations : List Restoration) : HistoryEvent → List Restoration
  | .add newRestoration => addRestoration newRestoration restorations
  | .delete itemId => deleteRestoration itemId restorations

/-- The list after a sequence of events, first event first. -/
def historyRun (events : List HistoryEvent) (restorations : List Restoration) :
    List Restoration :=
  events.foldl historyStep restorations

/-! ## Auxiliary notions for the statements and proofs -/

/-- The base64 texts of the image parts of a response, in order. -/
def imageSegments (parts : List Part) : List String := parts.filterMap Part.inlineData

/-- The effect of the callback's loop on one listing, computed entry by entry
without the file store: the listing left, the paths removed, and the error
that ended the run, if any. `sweepEntries_eq` shows that the loop
`sweepEntries` computes this on a listing without repeated names. -/
def sweepList (oneHourAgo : Int) (d : Store) : List File → List File × List Path × Option String
  | [] => ([], [], none)
  | f :: rest =>
    if f.statFails then
      (f :: rest, [], some ("EACCES: permission denied, stat " ++ (Path.mk d f.name).toString))
    else if f.mtimeMs < (oneHourAgo : Rat) then
      if f.unlinkFails then
        (f :: rest, [], some ("EPERM: operation not permitted, unlink " ++ (Path.mk d f.name).toString))
      else
        let r := sweepList oneHourAgo d rest
        (r.1, Path.mk d f.name :: r.2.1, r.2.2)
    else
      let r := sweepList oneHourAgo d rest
      (f :: r.1, r.2.1, r.2.2)

/-- The sweep of a directory that may be absent: an absent directory is
skipped. -/
def sweepOption (oneHourAgo : Int) (d : Store) :
    Option (List File) → Option (List File) × List Path × Option String
  | none => (none, [], none)
  | some l =>
    (some (sweepList oneHourAgo d l).1, (sweepList oneHourAgo d l).2.1,
      (sweepList oneHourAgo d l).2.2)

/-- Whether the callback's loop fails at an entry with threshold
`oneHourAgo`: `statSync` throws on it, or it is older than the threshold and
`unlinkSync` throws on it. -/
def failsAt (oneHourAgo : Int) (f : File) : Bool :=
  f.statFails || (decide (f.mtimeMs < (oneHourAgo : Rat)) && f.unlinkFails)

/-! ## Theorems -/

/-! ### C1: the prompt builder -/

/-- Every string that starts with the base prompt is non-empty. -/
theorem basePrompt_append_ne_empty (s : String) : basePrompt ++ s ≠ "" := by
  intro h
  have hlen := congrArg String.length h
  rw [String.length_append] at hlen
  have hb : basePrompt.length = 86 := by decide
  rw [hb] at hlen
  simp at hlen

/-- C1: `createRestorationPrompt` is a total function from mode strings to
strings; its result is never the empty string, and on every mode other than
the four named ones it is the text returned for the mode `default`. -/
theorem createRestorationPrompt_total (mode : String) :
    createRestorationPrompt mode ≠ "" ∧
    (mode ≠ "remove_distractions" → mode ≠ "fix_artifacts" →
      mode ≠ "enhance_clarity" → mode ≠ "deep_restoration" →
      createRestorationPrompt mode = createRestorationPrompt "default") := by
  constructor
  · unfold createRestorationPrompt
    split_ifs <;> simp only [String.append_assoc] <;> exact basePrompt_append_ne_empty _
  · intro h1 h2 h3 h4
    have hd : createRestorationPrompt "default" = basePrompt ++
      " improves the overall quality by removing distractions and enhancing clarity.\n" ++
      "      Remove any elements that appear to be artificially added to the original photograph.\n" ++
      "      Restore the image to how it would have looked if captured without any post-processing additions." := by
      unfold createRestorationPrompt
      rw [if_neg (by decide), if_neg (by decide), if_neg (by decide), if_neg (by decide)]
    rw [hd]
    unfold createRestorationPrompt
    rw [if_neg h1, if_neg h2, if_neg h3, if_neg h4]

/-- C1 at the unrecognised mode `sepia`. -/
theorem createRestorationPrompt_total_witness :
    createRestorationPrompt "sepia" ≠ "" ∧
    createRestorationPrompt "sepia" = createRestorationPrompt "default" :=
  ⟨(createRestorationPrompt_total "sepia").1,
   (createRestorationPrompt_total "sepia").2 (by decide) (by decide) (by decide) (by decide)⟩

/-! ### Listings -/

theorem findEntry_removeEntry_same (name : String) (l : List File) :
    findEntry name (removeEntry name l) = none := by
  unfold findEntry removeEntry
  rw [List.find?_eq_none]
  intro f hf
  rw [List.mem_filter] at hf
  simpa using hf.2

theorem findEntry_removeEntry_ne (name other : String) (h : other ≠ name) (l : List File) :
    findEntry other (removeEntry name l) = findEntry other l := by
  unfold findEntry removeEntry
  induction l with
  | nil => rfl
  | cons f rest ih =>
    have h' : name ≠ other := fun e => h e.symm
    by_cases hf : f.name = name
    · simp [List.filter_cons, List.find?_cons, hf, h', ih]
    · by_cases ho : f.name = other
      · simp [List.filter_cons, List.find?_cons, ho, h]
      · simp [List.filter_cons, List.find?_cons, hf, ho, ih]

theorem findEntry_append_new (name : String) (l : List File) (f : File)
    (hl : findEntry name l = none) (hf : f.name = name) :
    findEntry name (l ++ [f]) = some f := by
  unfold findEntry at *
  rw [List.find?_append, hl]
  simp [List.find?_cons, hf]

theorem findEntry_putEntry_same (t : Rat) (name : String) (data : List Nat) (l : List File) :
    ∃ f, findEntry name (putEntry t name data l) = some f ∧ f.name = name ∧ f.data = data := by
  unfold putEntry
  cases hfind : findEntry name l with
  | none => exact ⟨_, findEntry_append_new name l _ hfind rfl, rfl, rfl⟩
  | some g =>
    simp only
    unfold findEntry at *
    induction l with
    | nil => simp at hfind
    | cons f rest ih =>
      by_cases hf : f.name = name
      · exact ⟨{ f with data := data, mtimeMs := t }, by simp [List.find?_cons, hf], hf, rfl⟩
      · simp only [List.find?_cons, hf, decide_False] at hfind
        obtain ⟨f', h1, h2, h3⟩ := ih hfind
        exact ⟨f', by simp [List.find?_cons, hf, h1], h2, h3⟩

theorem findEntry_putEntry_ne (t : Rat) (name other : String) (h : other ≠ name)
    (data : List Nat) (l : List File) :
    findEntry other (putEntry t name data l) = findEntry other l := by
  have h' : name ≠ other := fun e => h e.symm
  unfold putEntry
  cases findEntry name l with
  | none =>
    simp only
    unfold findEntry
    rw [List.find?_append]
    have : List.find? (fun f => decide (f.name = other)) [File.mk name data t false false] = none := by
      simp [List.find?_cons, h']
    rw [this]; simp
  | some g =>
    simp only
    unfold findEntry
    induction l with
    | nil => rfl
    | cons f rest ih =>
      by_cases hf : f.name = name
      · simp only [List.map_cons, List.find?_cons, hf, if_true, h', decide_False]
        exact ih
      · by_cases ho : f.name = other
        · simp only [List.map_cons, List.find?_cons, hf, if_false, ho, decide_True]
          simp [h, ho]
        · simp only [List.map_cons, List.find?_cons, hf, if_false, ho, decide_False]
          exact ih
/-! ### File store operations -/

theorem Stores.dir_setDir_same (s : Stores) (d : Store) (l : List File) :
    (s.setDir d l).dir d = some l := by
  cases d <;> rfl

theorem Stores.dir_setDir_ne (s : Stores) (d e : Store) (l : List File) (h : e ≠ d) :
    (s.setDir d l).dir e = s.dir e := by
  cases d <;> cases e <;> first | rfl | exact absurd rfl h

theorem Stores.setDir_self (s : Stores) (d : Store) (l : List File) (h : s.dir d = some l) :
    s.setDir d l = s := by
  cases s; cases d <;> simp_all [Stores.setDir, Stores.dir]

theorem Path.name_ne_of_ne {p q : Path} (h : q ≠ p) (hs : q.store = p.store) : q.name ≠ p.name := by
  intro hn
  apply h
  cases p; cases q
  simp_all

/-- A successful write leaves the data at the path, every other path as it
was, and creates or removes no directory. -/
theorem writeFileSync_ok (t : Rat) (p : Path) (data : List Nat) (s : Stores)
    (hdir : (s.dir p.store).isSome) :
    ∃ s1, writeFileSync t p data s = .ok s1 ∧
      (∃ f, s1.lookup p = some f ∧ f.data = data) ∧
      (∀ q, q ≠ p → s1.lookup q = s.lookup q) ∧
      (∀ d, (s1.dir d).isSome = (s.dir d).isSome) := by
  unfold writeFileSync
  cases hl : s.dir p.store with
  | none => rw [hl] at hdir; exact absurd hdir (by simp)
  | some l =>
    refine ⟨_, rfl, ?_, ?_, ?_⟩
    · obtain ⟨f, hf, _, hd⟩ := findEntry_putEntry_same t p.name data l
      exact ⟨f, by simp [Stores.lookup, Stores.dir_setDir_same, hf], hd⟩
    · intro q hq
      by_cases hs : q.store = p.store
      · have hn := Path.name_ne_of_ne hq hs
        simp only [Stores.lookup, hs, Stores.dir_setDir_same, hl, Option.some_bind]
        exact findEntry_putEntry_ne t p.name q.name hn data l
      · simp only [Stores.lookup, Stores.dir_setDir_ne _ _ _ _ hs]
    · intro d
      by_cases hd : d = p.store
      · subst hd; simp [Stores.dir_setDir_same, hl]
      · rw [Stores.dir_setDir_ne _ _ _ _ hd]

/-- A write into a missing directory throws and changes nothing. -/
theorem writeFileSync_error (t : Rat) (p : Path) (data : List Nat) (s : Stores)
    (hdir : s.dir p.store = none) :
    ∃ e, writeFileSync t p data s = .error e := by
  unfold writeFileSync
  rw [hdir]
  exact ⟨_, rfl⟩

/-- Unlinking an entry that exists and does not refuse succeeds, removes the
entry and leaves every other path as it was. -/
theorem unlinkSync_ok (p : Path) (s : Stores) (f : File) (hf : s.lookup p = some f)
    (hu : f.unlinkFails = false) :
    ∃ s1, unlinkSync p s = .ok s1 ∧ s1.lookup p = none ∧
      (∀ q, q ≠ p → s1.lookup q = s.lookup q) ∧
      (∀ d, (s1.dir d).isSome = (s.dir d).isSome) := by
  unfold unlinkSync
  unfold Stores.lookup at hf
  cases hl : s.dir p.store with
  | none => rw [hl] at hf; simp at hf
  | some l =>
    rw [hl] at hf
    simp only [Option.some_bind] at hf
    simp only [hf, hu]
    refine ⟨_, rfl, ?_, ?_, ?_⟩
    · simp [Stores.lookup, Stores.dir_setDir_same, findEntry_removeEntry_same]
    · intro q hq
      by_cases hs : q.store = p.store
      · have hn := Path.name_ne_of_ne hq hs
        simp only [Stores.lookup, hs, Stores.dir_setDir_same, hl, Option.some_bind]
        exact findEntry_removeEntry_ne p.name q.name hn l
      · simp only [Stores.lookup, Stores.dir_setDir_ne _ _ _ _ hs]
    · intro d
      by_cases hd : d = p.store
      · subst hd; simp [Stores.dir_setDir_same, hl]
      · rw [Stores.dir_setDir_ne _ _ _ _ hd]

/-- A refused or impossible unlink throws. -/
theorem unlinkSync_refused (p : Path) (s : Stores) (f : File) (hf : s.lookup p = some f)
    (hu : f.unlinkFails = true) :
    ∃ e, unlinkSync p s = .error e := by
  unfold unlinkSync
  unfold Stores.lookup at hf
  cases hl : s.dir p.store with
  | none => rw [hl] at hf; simp at hf
  | some l =>
    rw [hl] at hf
    simp only [Option.some_bind] at hf
    simp only [hf, hu]
    exact ⟨_, rfl⟩
/-! ### The loop over the response parts -/

/-- Without an image part the loop writes nothing and leaves the flag. -/
theorem writeParts_no_image (t : Rat) (out : Path) (parts : List Part) (s : Stores) (flag : Bool)
    (h : imageSegments parts = []) :
    writeParts t out parts s flag = (s, .ok flag) := by
  induction parts with
  | nil => rfl
  | cons part rest ih =>
    cases hp : part.inlineData with
    | none =>
      have hrest : imageSegments rest = [] := by
        simpa [imageSegments, List.filterMap_cons, hp] using h
      simp only [writeParts, hp]
      exact ih hrest
    | some d => simp [imageSegments, List.filterMap_cons, hp] at h

/-- With the output directory present the loop never throws; every path but
the output path is left as it was, no directory appears or disappears, the
flag is set exactly when an image part was seen, and the output path then
holds the decoded data of the last image part. -/
theorem writeParts_ok (t : Rat) (out : Path) (parts : List Part) :
    ∀ (s : Stores) (flag : Bool), (s.dir out.store).isSome →
    ∃ s1, writeParts t out parts s flag = (s1, .ok (flag || !(imageSegments parts).isEmpty)) ∧
      (∀ q, q ≠ out → s1.lookup q = s.lookup q) ∧
      (∀ d, (s1.dir d).isSome = (s.dir d).isSome) ∧
      (∀ d, (imageSegments parts).getLast? = some d →
        ∃ f, s1.lookup out = some f ∧ f.data = bufferFromBase64 d) := by
  induction parts with
  | nil =>
    intro s flag _
    exact ⟨s, by simp [writeParts, imageSegments], fun _ _ => rfl, fun _ => rfl,
      by simp [imageSegments]⟩
  | cons part rest ih =>
    intro s flag hdir
    cases hp : part.inlineData with
    | none =>
      obtain ⟨s1, h1, h2, h3, h4⟩ := ih s flag hdir
      refine ⟨s1, ?_, h2, h3, ?_⟩
      · simp only [writeParts, hp, h1, imageSegments, List.filterMap_cons]
      · simpa only [imageSegments, List.filterMap_cons, hp] using h4
    | some d =>
      obtain ⟨s1, hw, ⟨f, hf, hfd⟩, hframe, hdirs⟩ :=
        writeFileSync_ok t out (bufferFromBase64 d) s hdir
      have hdir1 : (s1.dir out.store).isSome := by rw [hdirs]; exact hdir
      obtain ⟨s2, h1, h2, h3, h4⟩ := ih s1 true hdir1
      refine ⟨s2, ?_, ?_, ?_, ?_⟩
      · simp only [writeParts, hp, hw, h1, imageSegments, List.filterMap_cons]
        simp
      · intro q hq
        rw [h2 q hq, hframe q hq]
      · intro e
        rw [h3 e, hdirs e]
      · intro d1 hd1
        cases hrest : imageSegments rest with
        | nil =>
          have hs2 : s2 = s1 := by
            have := writeParts_no_image t out rest s1 true hrest
            rw [this] at h1
            exact (Prod.mk.inj h1).1.symm
          have : d1 = d := by
            simp only [imageSegments, List.filterMap_cons, hp] at hd1
            simp only [imageSegments] at hrest
            rw [hrest] at hd1
            simpa using hd1.symm
          subst this
          exact ⟨f, by rw [hs2]; exact hf, hfd⟩
        | cons x xs =>
          apply h4
          simp only [imageSegments, List.filterMap_cons, hp] at hd1
          rw [hrest]
          simp only [imageSegments] at hrest
          rw [hrest] at hd1
          simpa [List.getLast?_cons_cons] using hd1
/-! ### The restorer -/

/-- A run of `restoreImage` on a readable input, with the output directory
present and a response that has an image part: it returns the output path
after one model call; the output path holds the decoded data of the last
image part; the input is gone unless it refuses to be unlinked; every other
path is as before. -/
theorem restoreImage_ok (model : GenerativeModel) (t : Rat) (inp out : Path) (mode : String)
    (s : Stores) (fin : File) (parts : List Part) (d : String)
    (hread : s.lookup inp = some fin)
    (hmodel : model ⟨getMimeType inp.toString, toBase64 fin.data,
      createRestorationPrompt mode⟩ = .ok parts)
    (himg : (imageSegments parts).getLast? = some d)
    (hdir : (s.dir out.store).isSome)
    (hne : inp ≠ out) :
    (restoreImage model t inp mode out s).result = .ok out ∧
    (restoreImage model t inp mode out s).calls =
      [⟨getMimeType inp.toString, toBase64 fin.data, createRestorationPrompt mode⟩] ∧
    (∃ f, (restoreImage model t inp mode out s).stores.lookup out = some f ∧
      f.data = bufferFromBase64 d) ∧
    (fin.unlinkFails = false → (restoreImage model t inp mode out s).stores.lookup inp = none) ∧
    (fin.unlinkFails = true → (restoreImage model t inp mode out s).stores.lookup inp = some fin) ∧
    (∀ q, q ≠ out → q ≠ inp →
      (restoreImage model t inp mode out s).stores.lookup q = s.lookup q) := by
  obtain ⟨s1, hw, hframe, _, hlast⟩ := writeParts_ok t out parts s false hdir
  obtain ⟨f, hf, hfd⟩ := hlast d himg
  have hflag : (false || !(imageSegments parts).isEmpty) = true := by
    cases hseg : imageSegments parts with
    | nil => rw [hseg] at himg; simp at himg
    | cons x xs => rfl
  rw [hflag] at hw
  have hin1 : s1.lookup inp = some fin := by rw [hframe inp hne, hread]
  have hunfold : restoreImage model t inp mode out s =
      match unlinkSync inp s1 with
      | .ok s2 => ⟨s2, [⟨getMimeType inp.toString, toBase64 fin.data,
          createRestorationPrompt mode⟩], .ok out⟩
      | .error _ => ⟨s1, [⟨getMimeType inp.toString, toBase64 fin.data,
          createRestorationPrompt mode⟩], .ok out⟩ := by
    simp only [restoreImage, readFileSync, hread, hmodel, hw]
    rfl
  rw [hunfold]
  cases hu : fin.unlinkFails with
  | false =>
    obtain ⟨s2, hul, hgone, hframe2, _⟩ := unlinkSync_ok inp s1 fin hin1 hu
    rw [hul]
    refine ⟨rfl, rfl, ⟨f, ?_, hfd⟩, fun _ => hgone, fun h => by simp at h, ?_⟩
    · rw [hframe2 out (Ne.symm hne)]; exact hf
    · intro q hq1 hq2
      rw [hframe2 q hq2]; exact hframe q hq1
  | true =>
    obtain ⟨e, hul⟩ := unlinkSync_refused inp s1 fin hin1 hu
    rw [hul]
    exact ⟨rfl, rfl, ⟨f, hf, hfd⟩, fun h => by simp at h, fun _ => hin1,
      fun q hq1 _ => hframe q hq1⟩

/-- A run of `restoreImage` on a readable input whose response has no image
part throws the no-image error after one model call and leaves the file
store as it was. -/
theorem restoreImage_no_image (model : GenerativeModel) (t : Rat) (inp out : Path)
    (mode : String) (s : Stores) (fin : File) (parts : List Part)
    (hread : s.lookup inp = some fin)
    (hmodel : model ⟨getMimeType inp.toString, toBase64 fin.data,
      createRestorationPrompt mode⟩ = .ok parts)
    (himg : imageSegments parts = []) :
    restoreImage model t inp mode out s =
      ⟨s, [⟨getMimeType inp.toString, toBase64 fin.data, createRestorationPrompt mode⟩],
        .error "No image was generated in the response"⟩ := by
  simp only [restoreImage, readFileSync, hread, hmodel,
    writeParts_no_image t out parts s false himg]
  rfl

/-- With the output directory missing, the first image part makes the loop
throw. -/
theorem writeParts_error (t : Rat) (out : Path) (parts : List Part) (s : Stores) (flag : Bool)
    (hdir : s.dir out.store = none) (himg : imageSegments parts ≠ []) :
    ∃ e, writeParts t out parts s flag = (s, .error e) := by
  induction parts with
  | nil => exact absurd rfl himg
  | cons part rest ih =>
    cases hp : part.inlineData with
    | none =>
      have hrest : imageSegments rest ≠ [] := by
        simpa [imageSegments, List.filterMap_cons, hp] using himg
      obtain ⟨e, he⟩ := ih hrest
      exact ⟨e, by simp only [writeParts, hp, he]⟩
    | some d =>
      obtain ⟨e, he⟩ := writeFileSync_error t out (bufferFromBase64 d) s hdir
      exact ⟨e, by simp only [writeParts, hp, he]⟩

/-- A call of `restoreImage` that returns has read its input, got a response
with an image part from the model, and found the output directory. -/
theorem restoreImage_ok_inv (model : GenerativeModel) (t : Rat) (inp out : Path) (mode : String)
    (s : Stores) (q : Path) (h : (restoreImage model t inp mode out s).result = .ok q) :
    ∃ fin parts d, s.lookup inp = some fin ∧
      model ⟨getMimeType inp.toString, toBase64 fin.data, createRestorationPrompt mode⟩
        = .ok parts ∧
      (imageSegments parts).getLast? = some d ∧ (s.dir out.store).isSome := by
  cases hread : s.lookup inp with
  | none => simp [restoreImage, readFileSync, hread] at h
  | some fin =>
    cases hmodel : model ⟨getMimeType inp.toString, toBase64 fin.data,
        createRestorationPrompt mode⟩ with
    | error e => simp [restoreImage, readFileSync, hread, hmodel] at h
    | ok parts =>
      cases hseg : imageSegments parts with
      | nil =>
        rw [restoreImage_no_image model t inp out mode s fin parts hread hmodel hseg] at h
        simp at h
      | cons x xs =>
        have hlast : ∃ d, (imageSegments parts).getLast? = some d := by
          rw [hseg, List.getLast?_eq_getLast _ (List.cons_ne_nil x xs)]
          exact ⟨_, rfl⟩
        obtain ⟨d, hd⟩ := hlast
        cases hdir : s.dir out.store with
        | none =>
          obtain ⟨e, he⟩ := writeParts_error t out parts s false hdir
            (by rw [hseg]; exact List.cons_ne_nil x xs)
          simp [restoreImage, readFileSync, hread, hmodel, he] at h
        | some l => exact ⟨fin, parts, d, rfl, hmodel, hd, rfl⟩

/-! ### C2: which image part ends up at the output path -/

/-- C2 (as amended): for every response with at least one image part, on a
readable input with the results directory present and the output path other
than the input path, `restoreImage` returns the output path, and the bytes
it leaves there are the decoded data of the LAST image part of the response;
earlier image parts and text parts do not determine them. -/
theorem restoreImage_last_image (model : GenerativeModel) (t : Rat) (inp out : Path)
    (mode : String) (s : Stores) (fin : File) (parts : List Part) (d : String)
    (hread : s.lookup inp = some fin)
    (hmodel : model ⟨getMimeType inp.toString, toBase64 fin.data,
      createRestorationPrompt mode⟩ = .ok parts)
    (himg : (imageSegments parts).getLast? = some d)
    (hdir : (s.dir out.store).isSome)
    (hne : inp ≠ out) :
    (restoreImage model t inp mode out s).result = .ok out ∧
    ((restoreImage model t inp mode out s).stores.lookup out).map File.data
      = some (bufferFromBase64 d) := by
  obtain ⟨hres, _, ⟨f, hf, hfd⟩, _⟩ :=
    restoreImage_ok model t inp out mode s fin parts d hread hmodel himg hdir hne
  exact ⟨hres, by rw [hf, Option.map_some', hfd]⟩

/-- C2 on a response with a text part and two image parts: the second image
part is the one left at the output path. -/
theorem restoreImage_last_image_witness :
    (restoreImage (fun _ => .ok [⟨none, some "done"⟩, ⟨some "QUJD", none⟩, ⟨some "QQ==", none⟩])
      10 ⟨.uploads, "upload-5-7.png"⟩ "default" ⟨.results, "restored-9.png"⟩
      ⟨some [⟨"upload-5-7.png", [1, 2, 3], 4, false, false⟩], some []⟩).result
        = .ok ⟨.results, "restored-9.png"⟩ ∧
    ((restoreImage (fun _ => .ok [⟨none, some "done"⟩, ⟨some "QUJD", none⟩, ⟨some "QQ==", none⟩])
      10 ⟨.uploads, "upload-5-7.png"⟩ "default" ⟨.results, "restored-9.png"⟩
      ⟨some [⟨"upload-5-7.png", [1, 2, 3], 4, false, false⟩], some []⟩).stores.lookup
        ⟨.results, "restored-9.png"⟩).map File.data = some (bufferFromBase64 "QQ==") :=
  restoreImage_last_image _ 10 ⟨.uploads, "upload-5-7.png"⟩ ⟨.results, "restored-9.png"⟩
    "default" ⟨some [⟨"upload-5-7.png", [1, 2, 3], 4, false, false⟩], some []⟩
    ⟨"upload-5-7.png", [1, 2, 3], 4, false, false⟩
    [⟨none, some "done"⟩, ⟨some "QUJD", none⟩, ⟨some "QQ==", none⟩] "QQ=="
    (by decide) rfl (by decide) (by decide) (by decide)

/-- C2 (as stated) fails: with two image parts, `QUJD` (bytes 65 66 67) and
then `QQ==` (byte 65), the output path does not hold the decoded data of the
first image part. -/
theorem restoreImage_first_image_counterexample :
    ¬ (∀ (model : GenerativeModel) (t : Rat) (inp out : Path) (mode : String) (s : Stores)
        (fin : File) (parts : List Part) (d : String),
        s.lookup inp = some fin →
        model ⟨getMimeType inp.toString, toBase64 fin.data,
          createRestorationPrompt mode⟩ = .ok parts →
        (imageSegments parts).head? = some d →
        (s.dir out.store).isSome →
        inp ≠ out →
        ((restoreImage model t inp mode out s).stores.lookup out).map File.data
          = some (bufferFromBase64 d)) := by
  intro h
  have h1 := h (fun _ => .ok [⟨some "QUJD", none⟩, ⟨some "QQ==", none⟩]) 10
    ⟨.uploads, "upload-5-7.png"⟩ ⟨.results, "restored-9.png"⟩ "default"
    ⟨some [⟨"upload-5-7.png", [1, 2, 3], 4, false, false⟩], some []⟩
    ⟨"upload-5-7.png", [1, 2, 3], 4, false, false⟩
    [⟨some "QUJD", none⟩, ⟨some "QQ==", none⟩] "QUJD"
    (by decide) rfl (by decide) (by decide) (by decide)
  revert h1
  decide

/-! ### C3: a response without an image part -/

/-- C3: for a request with a stored file and a non-empty mode whose model
response has no image part, `restoreImage` throws the no-image error and
leaves the file store as it was (nothing is written at the output path); the
endpoint answers 500 with an error body carrying that message, the output
path is as before, and, when the input does not refuse to be unlinked, the
input file is gone from the upload store. -/
theorem apiRestore_no_image (model : GenerativeModel) (now : Int) (t : Rat)
    (filename mode : String) (s : Stores) (fin : File) (parts : List Part)
    (hmode : mode ≠ "")
    (hread : s.lookup ⟨.uploads, filename⟩ = some fin)
    (hmodel : model ⟨getMimeType (Path.mk .uploads filename).toString, toBase64 fin.data,
      createRestorationPrompt mode⟩ = .ok parts)
    (himg : imageSegments parts = []) :
    (restoreImage model t ⟨.uploads, filename⟩ mode ⟨.results, outputFilename now⟩ s).result
      = .error "No image was generated in the response" ∧
    (restoreImage model t ⟨.uploads, filename⟩ mode ⟨.results, outputFilename now⟩ s).stores = s ∧
    (apiRestore model now t ⟨some filename, some mode⟩ s).response
      = ⟨500, .error "Failed to process image" (some "No image was generated in the response")⟩ ∧
    (apiRestore model now t ⟨some filename, some mode⟩ s).stores.lookup
      ⟨.results, outputFilename now⟩ = s.lookup ⟨.results, outputFilename now⟩ ∧
    (fin.unlinkFails = false →
      (apiRestore model now t ⟨some filename, some mode⟩ s).stores.lookup
        ⟨.uploads, filename⟩ = none) := by
  have hr := restoreImage_no_image model t ⟨.uploads, filename⟩ ⟨.results, outputFilename now⟩
    mode s fin parts hread hmodel himg
  have hex : existsSync ⟨.uploads, filename⟩ s = true := by simp [existsSync, hread]
  have hne : (⟨.results, outputFilename now⟩ : Path) ≠ ⟨.uploads, filename⟩ := by
    intro h; cases h
  refine ⟨by rw [hr], by rw [hr], ?_, ?_, ?_⟩
  · simp only [apiRestore, hmode, if_false, hr]
  · simp only [apiRestore, hmode, if_false, hr, hex, if_true]
    cases hu : fin.unlinkFails with
    | false =>
      obtain ⟨s1, hul, _, hframe, _⟩ := unlinkSync_ok ⟨.uploads, filename⟩ s fin hread hu
      rw [hul]
      exact hframe _ hne
    | true =>
      obtain ⟨e, hul⟩ := unlinkSync_refused ⟨.uploads, filename⟩ s fin hread hu
      rw [hul]
  · intro hu
    simp only [apiRestore, hmode, if_false, hr, hex, if_true]
    obtain ⟨s1, hul, hgone, _, _⟩ := unlinkSync_ok ⟨.uploads, filename⟩ s fin hread hu
    rw [hul]
    exact hgone

/-- C3 on a response that holds only a text part. -/
theorem apiRestore_no_image_witness :
    (restoreImage (fun _ => .ok [⟨none, some "cannot help"⟩]) 10 ⟨.uploads, "upload-5-7.png"⟩
      "fix_artifacts" ⟨.results, outputFilename 9⟩
      ⟨some [⟨"upload-5-7.png", [1, 2, 3], 4, false, false⟩], some []⟩).result
      = .error "No image was generated in the response" ∧
    (restoreImage (fun _ => .ok [⟨none, some "cannot help"⟩]) 10 ⟨.uploads, "upload-5-7.png"⟩
      "fix_artifacts" ⟨.results, outputFilename 9⟩
      ⟨some [⟨"upload-5-7.png", [1, 2, 3], 4, false, false⟩], some []⟩).stores
      = ⟨some [⟨"upload-5-7.png", [1, 2, 3], 4, false, false⟩], some []⟩ ∧
    (apiRestore (fun _ => .ok [⟨none, some "cannot help"⟩]) 9 10
      ⟨some "upload-5-7.png", some "fix_artifacts"⟩
      ⟨some [⟨"upload-5-7.png", [1, 2, 3], 4, false, false⟩], some []⟩).response
      = ⟨500, .error "Failed to process image" (some "No image was generated in the response")⟩ ∧
    (apiRestore (fun _ => .ok [⟨none, some "cannot help"⟩]) 9 10
      ⟨some "upload-5-7.png", some "fix_artifacts"⟩
      ⟨some [⟨"upload-5-7.png", [1, 2, 3], 4, false, false⟩], some []⟩).stores.lookup
      ⟨.results, outputFilename 9⟩
      = Stores.lookup ⟨some [⟨"upload-5-7.png", [1, 2, 3], 4, false, false⟩], some []⟩
        ⟨.results, outputFilename 9⟩ ∧
    (apiRestore (fun _ => .ok [⟨none, some "cannot help"⟩]) 9 10
      ⟨some "upload-5-7.png", some "fix_artifacts"⟩
      ⟨some [⟨"upload-5-7.png", [1, 2, 3], 4, false, false⟩], some []⟩).stores.lookup
      ⟨.uploads, "upload-5-7.png"⟩ = none :=
  have h := apiRestore_no_image (fun _ => .ok [⟨none, some "cannot help"⟩]) 9 10
    "upload-5-7.png" "fix_artifacts"
    ⟨some [⟨"upload-5-7.png", [1, 2, 3], 4, false, false⟩], some []⟩
    ⟨"upload-5-7.png", [1, 2, 3], 4, false, false⟩ [⟨none, some "cannot help"⟩]
    (by decide) (by decide) rfl (by decide)
  ⟨h.1, h.2.1, h.2.2.1, h.2.2.2.1, h.2.2.2.2 rfl⟩

/-! ### C4: what a successful call changes in the file store -/

/-- C4: for every call of `restoreImage` that returns, with the output path
absent beforehand and the input not refusing to be unlinked, the file store
afterwards differs from the one before in exactly two ways: the output path
is the one and only path that exists now and did not before, and the input
path, which existed, exists no longer; every other path is unchanged. -/
theorem restoreImage_frame (model : GenerativeModel) (t : Rat) (inp out : Path) (mode : String)
    (s : Stores) (q : Path)
    (hok : (restoreImage model t inp mode out s).result = .ok q)
    (hnew : s.lookup out = none)
    (hdel : ∀ f, s.lookup inp = some f → f.unlinkFails = false) :
    (∀ p, (s.lookup p = none ∧ ((restoreImage model t inp mode out s).stores.lookup p).isSome)
      ↔ p = out) ∧
    (s.lookup inp).isSome ∧
    (restoreImage model t inp mode out s).stores.lookup inp = none ∧
    (∀ p, p ≠ out → p ≠ inp →
      (restoreImage model t inp mode out s).stores.lookup p = s.lookup p) := by
  obtain ⟨fin, parts, d, hread, hmodel, himg, hdir⟩ :=
    restoreImage_ok_inv model t inp out mode s q hok
  have hne : inp ≠ out := by
    intro h
    rw [h, hnew] at hread
    simp at hread
  obtain ⟨_, _, ⟨f, hf, _⟩, hgone, _, hframe⟩ :=
    restoreImage_ok model t inp out mode s fin parts d hread hmodel himg hdir hne
  have hgone1 := hgone (hdel fin hread)
  refine ⟨?_, by simp [hread], hgone1, hframe⟩
  intro p
  constructor
  · rintro ⟨hbefore, hafter⟩
    by_contra hp
    by_cases hpi : p = inp
    · rw [hpi, hread] at hbefore
      simp at hbefore
    · rw [hframe p hp hpi, hbefore] at hafter
      simp at hafter
  · intro hp
    subst hp
    exact ⟨hnew, by simp [hf]⟩

/-- C4 on a store that also holds an unrelated upload and an earlier result. -/
theorem restoreImage_frame_witness :
    (∀ p, (Stores.lookup ⟨some [⟨"upload-5-7.png", [1, 2, 3], 4, false, false⟩,
            ⟨"upload-6-1.jpg", [9], 5, false, false⟩],
          some [⟨"restored-2.png", [7], 3, false, false⟩]⟩ p = none ∧
        ((restoreImage (fun _ => .ok [⟨some "QUJD", none⟩]) 10 ⟨.uploads, "upload-5-7.png"⟩
          "default" ⟨.results, "restored-9.png"⟩
          ⟨some [⟨"upload-5-7.png", [1, 2, 3], 4, false, false⟩,
            ⟨"upload-6-1.jpg", [9], 5, false, false⟩],
          some [⟨"restored-2.png", [7], 3, false, false⟩]⟩).stores.lookup p).isSome)
      ↔ p = ⟨.results, "restored-9.png"⟩) ∧
    (Stores.lookup ⟨some [⟨"upload-5-7.png", [1, 2, 3], 4, false, false⟩,
            ⟨"upload-6-1.jpg", [9], 5, false, false⟩],
          some [⟨"restored-2.png", [7], 3, false, false⟩]⟩ ⟨.uploads, "upload-5-7.png"⟩).isSome ∧
    (restoreImage (fun _ => .ok [⟨some "QUJD", none⟩]) 10 ⟨.uploads, "upload-5-7.png"⟩
      "default" ⟨.results, "restored-9.png"⟩
      ⟨some [⟨"upload-5-7.png", [1, 2, 3], 4, false, false⟩,
        ⟨"upload-6-1.jpg", [9], 5, false, false⟩],
      some [⟨"restored-2.png", [7], 3, false, false⟩]⟩).stores.lookup
        ⟨.uploads, "upload-5-7.png"⟩ = none ∧
    (∀ p, p ≠ ⟨.results, "restored-9.png"⟩ → p ≠ ⟨.uploads, "upload-5-7.png"⟩ →
      (restoreImage (fun _ => .ok [⟨some "QUJD", none⟩]) 10 ⟨.uploads, "upload-5-7.png"⟩
        "default" ⟨.results, "restored-9.png"⟩
        ⟨some [⟨"upload-5-7.png", [1, 2, 3], 4, false, false⟩,
          ⟨"upload-6-1.jpg", [9], 5, false, false⟩],
        some [⟨"restored-2.png", [7], 3, false, false⟩]⟩).stores.lookup p
      = Stores.lookup ⟨some [⟨"upload-5-7.png", [1, 2, 3], 4, false, false⟩,
            ⟨"upload-6-1.jpg", [9], 5, false, false⟩],
          some [⟨"restored-2.png", [7], 3, false, false⟩]⟩ p) :=
  restoreImage_frame (fun _ => .ok [⟨some "QUJD", none⟩]) 10 ⟨.uploads, "upload-5-7.png"⟩
    ⟨.results, "restored-9.png"⟩ "default"
    ⟨some [⟨"upload-5-7.png", [1, 2, 3], 4, false, false⟩,
      ⟨"upload-6-1.jpg", [9], 5, false, false⟩],
     some [⟨"restored-2.png", [7], 3, false, false⟩]⟩
    ⟨.results, "restored-9.png"⟩ (by decide) (by decide)
    (by intro f hf; simp [Stores.lookup, Stores.dir, findEntry] at hf; rw [← hf])

/-! ### C5: the success response and the result file -/

/-- C5 (as amended): for every request on which the endpoint answers with the
success body, the request carried a file and a mode, `restoreImage` returned
the path `restored-<now>.png` of the results store, `imageUrl` is `/results/`
followed by that name, and the file at that path exists and holds the decoded
data of the last image part of the model response (so it is non-empty exactly
when that decoded data is). -/
theorem apiRestore_success (model : GenerativeModel) (now : Int) (t : Rat) (req : Request)
    (s : Stores) (url : String)
    (h : (apiRestore model now t req s).response.body = .success url) :
    ∃ filename mode call parts d f,
      req = ⟨some filename, some mode⟩ ∧
      (restoreImage model t ⟨.uploads, filename⟩ mode ⟨.results, outputFilename now⟩ s).result
        = .ok ⟨.results, outputFilename now⟩ ∧
      url = "/results/" ++ outputFilename now ∧
      (apiRestore model now t req s).calls = [call] ∧
      model call = .ok parts ∧
      (imageSegments parts).getLast? = some d ∧
      (apiRestore model now t req s).stores.lookup ⟨.results, outputFilename now⟩ = some f ∧
      f.data = bufferFromBase64 d := by
  obtain ⟨file, rmode⟩ := req
  cases file with
  | none => simp [apiRestore] at h
  | some filename =>
    cases rmode with
    | none => simp [apiRestore] at h
    | some mode =>
      by_cases hmode : mode = ""
      · simp [apiRestore, hmode] at h
      · cases hres : (restoreImage model t ⟨.uploads, filename⟩ mode
            ⟨.results, outputFilename now⟩ s).result with
        | error e => simp [apiRestore, hmode, hres] at h
        | ok q =>
          obtain ⟨fin, parts, d, hread, hmodel, himg, hdir⟩ :=
            restoreImage_ok_inv model t _ _ mode s q hres
          have hne : (⟨.uploads, filename⟩ : Path) ≠ ⟨.results, outputFilename now⟩ := by
            intro e; cases e
          obtain ⟨hok, hcalls, ⟨f, hf, hfd⟩, _⟩ :=
            restoreImage_ok model t _ _ mode s fin parts d hread hmodel himg hdir hne
          have hurl : url = "/results/" ++ outputFilename now := by
            simp only [apiRestore, hmode, if_false, hres] at h
            exact (Body.success.inj h).symm
          refine ⟨filename, mode, _, parts, d, f, rfl, hok, hurl, ?_, hmodel, himg, ?_, hfd⟩
          · simp only [apiRestore, hmode, if_false, hres]
            exact hcalls
          · simp only [apiRestore, hmode, if_false, hres]
            exact hf

/-- C5 on a request whose response carries one image part. -/
theorem apiRestore_success_witness :
    ∃ filename mode call parts d f,
      (⟨some "upload-5-7.png", some "enhance_clarity"⟩ : Request) = ⟨some filename, some mode⟩ ∧
      (restoreImage (fun _ => .ok [⟨some "QUJD", none⟩]) 10 ⟨.uploads, filename⟩ mode
        ⟨.results, outputFilename 9⟩
        ⟨some [⟨"upload-5-7.png", [1, 2, 3], 4, false, false⟩], some []⟩).result
        = .ok ⟨.results, outputFilename 9⟩ ∧
      "/results/restored-9.png" = "/results/" ++ outputFilename 9 ∧
      (apiRestore (fun _ => .ok [⟨some "QUJD", none⟩]) 9 10
        ⟨some "upload-5-7.png", some "enhance_clarity"⟩
        ⟨some [⟨"upload-5-7.png", [1, 2, 3], 4, false, false⟩], some []⟩).calls = [call] ∧
      (fun _ => .ok [⟨some "QUJD", none⟩] : GenerativeModel) call = .ok parts ∧
      (imageSegments parts).getLast? = some d ∧
      (apiRestore (fun _ => .ok [⟨some "QUJD", none⟩]) 9 10
        ⟨some "upload-5-7.png", some "enhance_clarity"⟩
        ⟨some [⟨"upload-5-7.png", [1, 2, 3], 4, false, false⟩], some []⟩).stores.lookup
        ⟨.results, outputFilename 9⟩ = some f ∧
      f.data = bufferFromBase64 d :=
  apiRestore_success (fun _ => .ok [⟨some "QUJD", none⟩]) 9 10
    ⟨some "upload-5-7.png", some "enhance_clarity"⟩
    ⟨some [⟨"upload-5-7.png", [1, 2, 3], 4, false, false⟩], some []⟩
    "/results/restored-9.png" (by decide)

/-- C5 (as stated) fails: when the only image part of the response carries the
empty string, the endpoint answers with the success body and the file at the
announced path exists but is empty. -/
theorem apiRestore_success_counterexample :
    ¬ (∀ (model : GenerativeModel) (now : Int) (t : Rat) (req : Request) (s : Stores)
        (url : String),
        (apiRestore model now t req s).response.body = .success url →
        ∃ f, (apiRestore model now t req s).stores.lookup ⟨.results, outputFilename now⟩ = some f ∧
          f.data ≠ []) := by
  intro h
  obtain ⟨f, hf, hdata⟩ := h (fun _ => .ok [⟨some "", none⟩]) 9 10
    ⟨some "upload-5-7.png", some "enhance_clarity"⟩
    ⟨some [⟨"upload-5-7.png", [1, 2, 3], 4, false, false⟩], some []⟩
    "/results/restored-9.png" (by decide)
  have hlook : (apiRestore (fun _ => .ok [⟨some "", none⟩]) 9 10
      ⟨some "upload-5-7.png", some "enhance_clarity"⟩
      ⟨some [⟨"upload-5-7.png", [1, 2, 3], 4, false, false⟩], some []⟩).stores.lookup
      ⟨.results, outputFilename 9⟩ = some ⟨"restored-9.png", [], 10, false, false⟩ := by decide
  rw [hlook] at hf
  exact hdata (by rw [← Option.some.inj hf])

/-! ### The sweep of one listing -/

theorem Stores.setDir_setDir (s : Stores) (d : Store) (a b : List File) :
    (s.setDir d a).setDir d b = s.setDir d b := by
  cases d <;> rfl

theorem findEntry_of_nodup (pre rest : List File) (f : File)
    (h : ((pre ++ f :: rest).map File.name).Nodup) :
    findEntry f.name (pre ++ f :: rest) = some f := by
  unfold findEntry
  rw [List.find?_append]
  have hpre : List.find? (fun g => decide (g.name = f.name)) pre = none := by
    rw [List.find?_eq_none]
    intro g hg hname
    rw [List.map_append, List.nodup_append] at h
    have hdis := h.2.2
    exact hdis (List.mem_map_of_mem File.name hg)
      (by simp only [decide_eq_true_eq] at hname; rw [hname]; simp)
  rw [hpre]
  simp [List.find?_cons]

theorem removeEntry_of_nodup (pre rest : List File) (f : File)
    (h : ((pre ++ f :: rest).map File.name).Nodup) :
    removeEntry f.name (pre ++ f :: rest) = pre ++ rest := by
  unfold removeEntry
  rw [List.map_append, List.nodup_append] at h
  obtain ⟨_, h2, hdis⟩ := h
  rw [List.map_cons, List.nodup_cons] at h2
  rw [List.filter_append, List.filter_cons]
  have hpre : pre.filter (fun g => !decide (g.name = f.name)) = pre := by
    rw [List.filter_eq_self]
    intro g hg
    have : g.name ≠ f.name := fun e =>
      hdis (List.mem_map_of_mem File.name hg) (by rw [e]; simp)
    simp [this]
  have hrest : rest.filter (fun g => !decide (g.name = f.name)) = rest := by
    rw [List.filter_eq_self]
    intro g hg
    have : g.name ≠ f.name := fun e => h2.1 (by rw [← e]; exact List.mem_map_of_mem File.name hg)
    simp [this]
  rw [hpre, hrest]
  simp

theorem nodup_drop_middle (pre rest : List File) (f : File)
    (h : ((pre ++ f :: rest).map File.name).Nodup) :
    ((pre ++ rest).map File.name).Nodup := by
  refine List.Nodup.sublist ?_ h
  exact List.Sublist.map _ (List.Sublist.append (List.Sublist.refl pre) (List.sublist_cons_self f rest))

/-- On a listing without repeated names, the loop of the callback over the
names of `todo` does what `sweepList` does on `todo`, and leaves the entries
`pre` listed before them alone. -/
theorem sweepEntries_eq (T : Int) (d : Store) (todo : List File) :
    ∀ (pre : List File) (s : Stores) (cleaned : List Path),
      s.dir d = some (pre ++ todo) → ((pre ++ todo).map File.name).Nodup →
      sweepEntries T d (todo.map File.name) s cleaned =
        ⟨s.setDir d (pre ++ (sweepList T d todo).1), cleaned ++ (sweepList T d todo).2.1,
          (sweepList T d todo).2.2⟩ := by
  induction todo with
  | nil =>
    intro pre s cleaned hdir _
    simp only [List.map_nil, sweepEntries, sweepList, List.append_nil]
    rw [Stores.setDir_self s d pre (by simpa using hdir)]
  | cons f rest ih =>
    intro pre s cleaned hdir hnd
    have hlook : s.lookup ⟨d, f.name⟩ = some f := by
      simp only [Stores.lookup, hdir, Option.some_bind]
      exact findEntry_of_nodup pre rest f hnd
    simp only [List.map_cons, sweepEntries, statSync, hlook, sweepList]
    cases hst : f.statFails with
    | true =>
      simp only [if_true]
      rw [Stores.setDir_self s d _ hdir, List.append_nil]
    | false =>
      simp only [Bool.false_eq_true, if_false]
      by_cases hold : f.mtimeMs < (T : Rat)
      · simp only [hold, if_true]
        cases hun : f.unlinkFails with
        | true =>
          obtain ⟨e, he⟩ := unlinkSync_refused ⟨d, f.name⟩ s f hlook hun
          have he2 : unlinkSync ⟨d, f.name⟩ s =
              .error ("EPERM: operation not permitted, unlink " ++ (Path.mk d f.name).toString) := by
            simp only [unlinkSync, hdir, findEntry_of_nodup pre rest f hnd, hun, if_true]
          rw [he2]
          simp only [if_true]
          rw [Stores.setDir_self s d _ hdir, List.append_nil]
        | false =>
          have he2 : unlinkSync ⟨d, f.name⟩ s = .ok (s.setDir d (pre ++ rest)) := by
            simp only [unlinkSync, hdir, findEntry_of_nodup pre rest f hnd, hun,
              Bool.false_eq_true, if_false, removeEntry_of_nodup pre rest f hnd]
          rw [he2]
          simp only [Bool.false_eq_true, if_false]
          rw [ih pre (s.setDir d (pre ++ rest)) (cleaned ++ [Path.mk d f.name])
            (Stores.dir_setDir_same s d _) (nodup_drop_middle pre rest f hnd)]
          rw [Stores.setDir_setDir, List.append_assoc]
          simp
      · simp only [hold, if_false]
        have hdir2 : s.dir d = some ((pre ++ [f]) ++ rest) := by
          rw [hdir]; simp
        have hnd2 : (((pre ++ [f]) ++ rest).map File.name).Nodup := by
          simpa using hnd
        rw [ih (pre ++ [f]) s cleaned hdir2 hnd2]
        simp

/-- On a well-formed file store the callback sweeps the uploads listing and,
unless that ended in an error, the results listing. -/
theorem sweep_eq (now : Int) (s : Stores) (hwf : s.WellFormed) :
    sweep now s =
      match (sweepOption (now - 60 * 60 * 1000) .uploads s.uploads).2.2 with
      | some e =>
        ⟨⟨(sweepOption (now - 60 * 60 * 1000) .uploads s.uploads).1, s.results⟩,
          (sweepOption (now - 60 * 60 * 1000) .uploads s.uploads).2.1, some e⟩
      | none =>
        ⟨⟨(sweepOption (now - 60 * 60 * 1000) .uploads s.uploads).1,
            (sweepOption (now - 60 * 60 * 1000) .results s.results).1⟩,
          (sweepOption (now - 60 * 60 * 1000) .uploads s.uploads).2.1 ++
            (sweepOption (now - 60 * 60 * 1000) .results s.results).2.1,
          (sweepOption (now - 60 * 60 * 1000) .results s.results).2.2⟩ := by
  obtain ⟨up, res⟩ := s
  obtain ⟨hwu, hwr⟩ := hwf
  have hres : ∀ (u1 : Option (List File)) (cleaned : List Path),
      sweepStore (now - 60 * 60 * 1000) .results ⟨u1, res⟩ cleaned =
        ⟨⟨u1, (sweepOption (now - 60 * 60 * 1000) .results res).1⟩,
          cleaned ++ (sweepOption (now - 60 * 60 * 1000) .results res).2.1,
          (sweepOption (now - 60 * 60 * 1000) .results res).2.2⟩ := by
    intro u1 cleaned
    cases res with
    | none => simp [sweepStore, Stores.dir, sweepOption]
    | some lr =>
      simp only [sweepStore, Stores.dir, readdirSync, sweepOption]
      rw [sweepEntries_eq (now - 60 * 60 * 1000) .results lr [] ⟨u1, some lr⟩ cleaned
        (by simp [Stores.dir]) (by simpa using hwr)]
      simp [Stores.setDir]
  have hup : sweepStore (now - 60 * 60 * 1000) .uploads ⟨up, res⟩ [] =
      ⟨⟨(sweepOption (now - 60 * 60 * 1000) .uploads up).1, res⟩,
        (sweepOption (now - 60 * 60 * 1000) .uploads up).2.1,
        (sweepOption (now - 60 * 60 * 1000) .uploads up).2.2⟩ := by
    cases up with
    | none => simp [sweepStore, Stores.dir, sweepOption]
    | some lu =>
      simp only [sweepStore, Stores.dir, readdirSync, sweepOption]
      rw [sweepEntries_eq (now - 60 * 60 * 1000) .uploads lu [] ⟨some lu, res⟩ []
        (by simp [Stores.dir]) (by simpa using hwu)]
      simp [Stores.setDir]
  simp only [sweep]
  rw [hup]
  cases herr : (sweepOption (now - 60 * 60 * 1000) .uploads up).2.2 with
  | some e => rfl
  | none =>
    simp only
    rw [hres]

/-! ### Properties of the sweep of a listing -/

theorem sweepList_sublist (T : Int) (d : Store) (l : List File) :
    (sweepList T d l).1.Sublist l := by
  induction l with
  | nil => simp [sweepList]
  | cons f rest ih =>
    simp only [sweepList]
    split_ifs
    · exact List.Sublist.refl _
    · exact List.Sublist.refl _
    · exact List.Sublist.cons f ih
    · exact List.Sublist.cons₂ f ih

/-- A run over a listing that ended without error kept exactly the entries
that are not older than the threshold and reported the others. -/
theorem sweepList_of_no_error (T : Int) (d : Store) (l : List File)
    (h : (sweepList T d l).2.2 = none) :
    (sweepList T d l).1 = l.filter (fun f => decide ((T : Rat) ≤ f.mtimeMs)) ∧
    (sweepList T d l).2.1 =
      (l.filter (fun f => decide (f.mtimeMs < (T : Rat)))).map (fun f => Path.mk d f.name) := by
  induction l with
  | nil => simp [sweepList]
  | cons f rest ih =>
    simp only [sweepList] at h ⊢
    split_ifs at h ⊢ with h1 h2 h3
    · obtain ⟨ih1, ih2⟩ := ih h
      simp [List.filter_cons, h2, not_le.mpr h2, ih1, ih2]
    · obtain ⟨ih1, ih2⟩ := ih h
      simp [List.filter_cons, h2, not_lt.mp h2, ih1, ih2]

/-- Sweeping the listing left by a sweep changes nothing, removes nothing and
ends the same way. -/
theorem sweepList_idem (T : Int) (d : Store) (l : List File) :
    sweepList T d (sweepList T d l).1 = ((sweepList T d l).1, [], (sweepList T d l).2.2) := by
  induction l with
  | nil => simp [sweepList]
  | cons f rest ih =>
    cases h1 : f.statFails with
    | true => simp [sweepList, h1]
    | false =>
      by_cases h2 : f.mtimeMs < (T : Rat)
      · cases h3 : f.unlinkFails with
        | true => simp [sweepList, h1, h2, h3]
        | false =>
          simp only [sweepList, h1, h2, h3, Bool.false_eq_true, if_false, if_true]
          exact ih
      · simp only [sweepList, h1, h2, Bool.false_eq_true, if_false]
        rw [ih]

theorem sweepOption_idem (T : Int) (d : Store) (ol : Option (List File)) :
    sweepOption T d (sweepOption T d ol).1 =
      ((sweepOption T d ol).1, [], (sweepOption T d ol).2.2) := by
  cases ol with
  | none => rfl
  | some l => simp only [sweepOption, sweepList_idem]

theorem sweepOption_nodup (T : Int) (d : Store) (ol : Option (List File))
    (h : ((ol.getD []).map File.name).Nodup) :
    ((((sweepOption T d ol).1).getD []).map File.name).Nodup := by
  cases ol with
  | none => simp [sweepOption]
  | some l0 =>
    simp only [sweepOption, Option.getD_some] at h ⊢
    exact List.Nodup.sublist (List.Sublist.map _ (sweepList_sublist T d l0)) h

theorem sweepOption_of_no_error (T : Int) (d : Store) (ol : Option (List File))
    (h : (sweepOption T d ol).2.2 = none) :
    (sweepOption T d ol).1 = ol.map (List.filter (fun f => decide ((T : Rat) ≤ f.mtimeMs))) ∧
    (sweepOption T d ol).2.1 =
      ((ol.getD []).filter (fun f => decide (f.mtimeMs < (T : Rat)))).map
        (fun f => Path.mk d f.name) := by
  cases ol with
  | none => simp [sweepOption]
  | some l =>
    simp only [sweepOption] at h
    obtain ⟨h1, h2⟩ := sweepList_of_no_error T d l h
    simp [sweepOption, h1, h2]

/-! ### C6: what one run of the sweep removes -/

/-- C6: on a well-formed file store, a run of the sweep at clock reading `now`
in which no `stat` or `unlink` fails leaves in each directory exactly the
entries whose last-modified time is not older than `now - 3600000`, in their
order, and reports the others, uploads first, as cleaned. -/
theorem sweep_removes_exactly_old (now : Int) (s : Stores) (hwf : s.WellFormed)
    (hok : (sweep now s).error = none) :
    (sweep now s).stores.uploads =
      s.uploads.map (List.filter (fun f => decide (((now - 3600000 : Int) : Rat) ≤ f.mtimeMs))) ∧
    (sweep now s).stores.results =
      s.results.map (List.filter (fun f => decide (((now - 3600000 : Int) : Rat) ≤ f.mtimeMs))) ∧
    (sweep now s).cleaned =
      ((s.uploads.getD []).filter
          (fun f => decide (f.mtimeMs < ((now - 3600000 : Int) : Rat)))).map
        (fun f => Path.mk .uploads f.name) ++
      ((s.results.getD []).filter
          (fun f => decide (f.mtimeMs < ((now - 3600000 : Int) : Rat)))).map
        (fun f => Path.mk .results f.name) := by
  have hT : now - 60 * 60 * 1000 = now - 3600000 := by norm_num
  rw [sweep_eq now s hwf] at hok ⊢
  rw [hT] at hok ⊢
  cases hu : (sweepOption (now - 3600000) .uploads s.uploads).2.2 with
  | some e => rw [hu] at hok; simp at hok
  | none =>
    rw [hu] at hok
    simp only at hok ⊢
    obtain ⟨hu1, hu2⟩ := sweepOption_of_no_error _ _ _ hu
    obtain ⟨hr1, hr2⟩ := sweepOption_of_no_error _ _ _ hok
    exact ⟨hu1, hr1, by rw [hu2, hr2]⟩

/-- C6 at clock reading 10000000 (threshold 6400000): in each directory the
entry older than the threshold is removed and the newer one, like the one
dated exactly at the threshold, stays. -/
theorem sweep_removes_exactly_old_witness :
    (sweep 10000000
      ⟨some [⟨"upload-1-1.png", [1], 1000, false, false⟩,
          ⟨"upload-9-2.png", [2], 9000000, false, false⟩],
        some [⟨"restored-6400000.png", [3], 6400000, false, false⟩,
          ⟨"restored-2.png", [4], 6399999, false, false⟩]⟩).stores.uploads =
      (some [⟨"upload-1-1.png", [1], 1000, false, false⟩,
          ⟨"upload-9-2.png", [2], 9000000, false, false⟩] : Option (List File)).map
        (List.filter (fun f => decide (((10000000 - 3600000 : Int) : Rat) ≤ f.mtimeMs))) ∧
    (sweep 10000000
      ⟨some [⟨"upload-1-1.png", [1], 1000, false, false⟩,
          ⟨"upload-9-2.png", [2], 9000000, false, false⟩],
        some [⟨"restored-6400000.png", [3], 6400000, false, false⟩,
          ⟨"restored-2.png", [4], 6399999, false, false⟩]⟩).stores.results =
      (some [⟨"restored-6400000.png", [3], 6400000, false, false⟩,
          ⟨"restored-2.png", [4], 6399999, false, false⟩] : Option (List File)).map
        (List.filter (fun f => decide (((10000000 - 3600000 : Int) : Rat) ≤ f.mtimeMs))) ∧
    (sweep 10000000
      ⟨some [⟨"upload-1-1.png", [1], 1000, false, false⟩,
          ⟨"upload-9-2.png", [2], 9000000, false, false⟩],
        some [⟨"restored-6400000.png", [3], 6400000, false, false⟩,
          ⟨"restored-2.png", [4], 6399999, false, false⟩]⟩).stores =
      ⟨some [⟨"upload-9-2.png", [2], 9000000, false, false⟩],
        some [⟨"restored-6400000.png", [3], 6400000, false, false⟩]⟩ :=
  have h := sweep_removes_exactly_old 10000000
    ⟨some [⟨"upload-1-1.png", [1], 1000, false, false⟩,
        ⟨"upload-9-2.png", [2], 9000000, false, false⟩],
      some [⟨"restored-6400000.png", [3], 6400000, false, false⟩,
        ⟨"restored-2.png", [4], 6399999, false, false⟩]⟩ (by decide) (by decide)
  ⟨h.1, h.2.1, by decide⟩

/-! ### C7: a second run of the sweep -/

/-- C7: on a well-formed file store, a second run of the sweep at the same
clock reading leaves the file store of the first run as it is, cleans
nothing, and ends as the first run ended (without error when the first run
had none); the callback itself never throws. -/
theorem sweep_idempotent (now : Int) (s : Stores) (hwf : s.WellFormed) :
    (sweep now (sweep now s).stores).stores = (sweep now s).stores ∧
    (sweep now (sweep now s).stores).cleaned = [] ∧
    (sweep now (sweep now s).stores).error = (sweep now s).error := by
  have hwf1 : (sweep now s).stores.WellFormed := by
    rw [sweep_eq now s hwf]
    cases (sweepOption (now - 60 * 60 * 1000) .uploads s.uploads).2.2 with
    | some e => exact ⟨sweepOption_nodup _ _ _ hwf.1, hwf.2⟩
    | none => exact ⟨sweepOption_nodup _ _ _ hwf.1, sweepOption_nodup _ _ _ hwf.2⟩
  rw [sweep_eq now (sweep now s).stores hwf1, sweep_eq now s hwf]
  generalize now - 60 * 60 * 1000 = T
  cases hu : (sweepOption T .uploads s.uploads).2.2 with
  | some e => simp [sweepOption_idem, hu]
  | none => simp [sweepOption_idem, hu]

/-- C7 on a store with old and new entries in both directories. -/
theorem sweep_idempotent_witness :
    (sweep 10000000 (sweep 10000000
      ⟨some [⟨"upload-1-1.png", [1], 1000, false, false⟩,
          ⟨"upload-9-2.png", [2], 9000000, false, false⟩],
        some [⟨"restored-2.png", [4], 6399999, false, false⟩]⟩).stores).stores =
      (sweep 10000000
      ⟨some [⟨"upload-1-1.png", [1], 1000, false, false⟩,
          ⟨"upload-9-2.png", [2], 9000000, false, false⟩],
        some [⟨"restored-2.png", [4], 6399999, false, false⟩]⟩).stores ∧
    (sweep 10000000 (sweep 10000000
      ⟨some [⟨"upload-1-1.png", [1], 1000, false, false⟩,
          ⟨"upload-9-2.png", [2], 9000000, false, false⟩],
        some [⟨"restored-2.png", [4], 6399999, false, false⟩]⟩).stores).cleaned = [] ∧
    (sweep 10000000 (sweep 10000000
      ⟨some [⟨"upload-1-1.png", [1], 1000, false, false⟩,
          ⟨"upload-9-2.png", [2], 9000000, false, false⟩],
        some [⟨"restored-2.png", [4], 6399999, false, false⟩]⟩).stores).error =
      (sweep 10000000
      ⟨some [⟨"upload-1-1.png", [1], 1000, false, false⟩,
          ⟨"upload-9-2.png", [2], 9000000, false, false⟩],
        some [⟨"restored-2.png", [4], 6399999, false, false⟩]⟩).error :=
  sweep_idempotent 10000000
    ⟨some [⟨"upload-1-1.png", [1], 1000, false, false⟩,
        ⟨"upload-9-2.png", [2], 9000000, false, false⟩],
      some [⟨"restored-2.png", [4], 6399999, false, false⟩]⟩ (by decide)

/-! ### C8: the name of the result file -/

/-- C8 (the code at the failing input): two uploads stored at the same clock
reading get different temp names, because the storage callback adds the
random number; the handler names the result by the clock reading alone, so
two requests handled at the same reading are both answered with
`/results/restored-1700000000000.png`, and the second result overwrites the
first: one result file is left, holding the second image. -/
theorem outputFilename_same_clock_collision :
    storageFilename 1700000000000 111 "a.png" ≠ storageFilename 1700000000000 222 "a.png" ∧
    (apiRestore (fun c => .ok [⟨some c.data, none⟩]) 1700000000000 1700000000500
      ⟨some "upload-1700000000000-111.png", some "default"⟩
      ⟨some [⟨"upload-1700000000000-111.png", [1, 2, 3], 1700000000000, false, false⟩,
          ⟨"upload-1700000000000-222.png", [4, 5, 6], 1700000000000, false, false⟩],
        some []⟩).response = ⟨200, .success "/results/restored-1700000000000.png"⟩ ∧
    (apiRestore (fun c => .ok [⟨some c.data, none⟩]) 1700000000000 1700000000600
      ⟨some "upload-1700000000000-222.png", some "default"⟩
      (apiRestore (fun c => .ok [⟨some c.data, none⟩]) 1700000000000 1700000000500
        ⟨some "upload-1700000000000-111.png", some "default"⟩
        ⟨some [⟨"upload-1700000000000-111.png", [1, 2, 3], 1700000000000, false, false⟩,
            ⟨"upload-1700000000000-222.png", [4, 5, 6], 1700000000000, false, false⟩],
          some []⟩).stores).response = ⟨200, .success "/results/restored-1700000000000.png"⟩ ∧
    (apiRestore (fun c => .ok [⟨some c.data, none⟩]) 1700000000000 1700000000600
      ⟨some "upload-1700000000000-222.png", some "default"⟩
      (apiRestore (fun c => .ok [⟨some c.data, none⟩]) 1700000000000 1700000000500
        ⟨some "upload-1700000000000-111.png", some "default"⟩
        ⟨some [⟨"upload-1700000000000-111.png", [1, 2, 3], 1700000000000, false, false⟩,
            ⟨"upload-1700000000000-222.png", [4, 5, 6], 1700000000000, false, false⟩],
          some []⟩).stores).stores.results =
      some [⟨"restored-1700000000000.png", [4, 5, 6], 1700000000600, false, false⟩] := by
  decide

/-! ### C9: the MIME type sent for an accepted upload -/

/-- C9 (the code at the failing input): an upload whose original name is
`.png` passes the file filter, its extension as computed by `path.extname` is
empty, so it is stored as `upload-1700000000000-123456789` without extension,
and `restoreImage` sends it to the model as `application/octet-stream`. -/
theorem getMimeType_dotfile_upload :
    fileFilter ".png" = true ∧
    extname ".png" = "" ∧
    uploadSingle 1700000000000 123456789 1700000000000 (some ⟨".png", [137, 80, 78, 71]⟩)
      ⟨none, some []⟩ =
      (⟨some [⟨"upload-1700000000000-123456789", [137, 80, 78, 71], 1700000000000, false, false⟩],
        some []⟩, .ok (some "upload-1700000000000-123456789")) ∧
    getMimeType (Path.mk .uploads "upload-1700000000000-123456789").toString
      = "application/octet-stream" ∧
    (apiRestore (fun c => .ok [⟨some c.data, none⟩]) 1700000000001 1700000000500
      ⟨some "upload-1700000000000-123456789", some "default"⟩
      ⟨some [⟨"upload-1700000000000-123456789", [137, 80, 78, 71], 1700000000000, false, false⟩],
        some []⟩).calls.map Call.mimeType = ["application/octet-stream"] := by
  decide

/-! ### C10: validation of the mode field -/

/-- C10: for a request that carries a file, a missing or empty
`restorationMode` is answered with status 400 and the error
`No restoration mode provided`, with `restoreImage` and the model never
called and the file store untouched; every non-empty mode, recognised or
not, passes validation: `restoreImage` is called once and the answer is not
a 400. -/
theorem apiRestore_mode_validation (model : GenerativeModel) (now : Int) (t : Rat)
    (filename : String) (s : Stores) (mode : Option String) :
    (mode = none ∨ mode = some "" →
      apiRestore model now t ⟨some filename, mode⟩ s =
        ⟨s, [], 0, ⟨400, .error "No restoration mode provided" none⟩⟩) ∧
    (∀ m, mode = some m → m ≠ "" →
      (apiRestore model now t ⟨some filename, mode⟩ s).restoreCalls = 1 ∧
      (apiRestore model now t ⟨some filename, mode⟩ s).response.status ≠ 400 ∧
      (apiRestore model now t ⟨some filename, mode⟩ s).calls =
        (restoreImage model t ⟨.uploads, filename⟩ m ⟨.results, outputFilename now⟩ s).calls) := by
  constructor
  · rintro (h | h) <;> subst h <;> simp [apiRestore]
  · intro m hm hne
    subst hm
    simp only [apiRestore, hne, if_false]
    cases (restoreImage model t ⟨.uploads, filename⟩ m ⟨.results, outputFilename now⟩ s).result with
    | ok q => exact ⟨rfl, by simp, rfl⟩
    | error e => exact ⟨rfl, by simp, rfl⟩

/-- C10 on a request without the field, and on one with the unrecognised mode
`sepia`. -/
theorem apiRestore_mode_validation_witness :
    apiRestore (fun c => .ok [⟨some c.data, none⟩]) 9 10 ⟨some "upload-5-7.png", none⟩
      ⟨some [⟨"upload-5-7.png", [1, 2, 3], 4, false, false⟩], some []⟩ =
      ⟨⟨some [⟨"upload-5-7.png", [1, 2, 3], 4, false, false⟩], some []⟩, [], 0,
        ⟨400, .error "No restoration mode provided" none⟩⟩ ∧
    (apiRestore (fun c => .ok [⟨some c.data, none⟩]) 9 10 ⟨some "upload-5-7.png", some "sepia"⟩
      ⟨some [⟨"upload-5-7.png", [1, 2, 3], 4, false, false⟩], some []⟩).restoreCalls = 1 ∧
    (apiRestore (fun c => .ok [⟨some c.data, none⟩]) 9 10 ⟨some "upload-5-7.png", some "sepia"⟩
      ⟨some [⟨"upload-5-7.png", [1, 2, 3], 4, false, false⟩], some []⟩).response.status ≠ 400 :=
  ⟨(apiRestore_mode_validation _ 9 10 "upload-5-7.png"
      ⟨some [⟨"upload-5-7.png", [1, 2, 3], 4, false, false⟩], some []⟩ none).1 (Or.inl rfl),
   ((apiRestore_mode_validation _ 9 10 "upload-5-7.png"
      ⟨some [⟨"upload-5-7.png", [1, 2, 3], 4, false, false⟩], some []⟩ (some "sepia")).2
      "sepia" rfl (by decide)).1,
   ((apiRestore_mode_validation _ 9 10 "upload-5-7.png"
      ⟨some [⟨"upload-5-7.png", [1, 2, 3], 4, false, false⟩], some []⟩ (some "sepia")).2
      "sepia" rfl (by decide)).2.1⟩

/-! ### C11: the cap of the client history -/

theorem addRestoration_capped (r : Restoration) (l : List Restoration) :
    (addRestoration r l).length ≤ 20 := by
  unfold addRestoration
  simp only
  split_ifs with h
  · rw [List.length_take]
    exact Nat.min_le_left _ _
  · exact Nat.le_of_not_lt h

theorem deleteRestoration_length_le (itemId : Int) (l : List Restoration) :
    (deleteRestoration itemId l).length ≤ l.length :=
  List.length_filter_le _ _

theorem historyStep_capped (l : List Restoration) (e : HistoryEvent) (h : l.length ≤ 20) :
    (historyStep l e).length ≤ 20 := by
  cases e with
  | add r => exact addRestoration_capped r l
  | delete itemId => exact Nat.le_trans (deleteRestoration_length_le itemId l) h

theorem historyRun_capped (events : List HistoryEvent) :
    ∀ l : List Restoration, l.length ≤ 20 → (historyRun events l).length ≤ 20 := by
  induction events with
  | nil => intro l h; exact h
  | cons e rest ih =>
    intro l h
    exact ih (historyStep l e) (historyStep_capped l e h)

/-- C11: starting from a list of at most 20 records, the list has at most 20
records after an add, after a delete, and after every sequence of adds and
deletes; an add puts the new record first, followed by the previous records
in their order, all of them when there were fewer than 20 and all but the
last (oldest) one when there were 20. -/
theorem history_capped (restorations : List Restoration) (h : restorations.length ≤ 20) :
    (∀ r, (addRestoration r restorations).length ≤ 20 ∧
      addRestoration r restorations = r :: restorations.take 19 ∧
      (restorations.length < 20 → addRestoration r restorations = r :: restorations) ∧
      (restorations.length = 20 → addRestoration r restorations = r :: restorations.dropLast)) ∧
    (∀ itemId, (deleteRestoration itemId restorations).length ≤ 20) ∧
    (∀ events, (historyRun events restorations).length ≤ 20) := by
  refine ⟨fun r => ⟨addRestoration_capped r restorations, ?_, ?_, ?_⟩,
    fun itemId => Nat.le_trans (deleteRestoration_length_le itemId restorations) h,
    fun events => historyRun_capped events restorations h⟩
  · unfold addRestoration
    simp only
    split_ifs with hlen
    · rfl
    · rw [List.take_of_length_le]
      simp only [List.length_cons, gt_iff_lt, not_lt] at hlen
      omega
  · intro hlt
    unfold addRestoration
    simp only
    rw [if_neg]
    simp only [List.length_cons, gt_iff_lt, not_lt]
    omega
  · intro heq
    unfold addRestoration
    simp only
    rw [if_pos (by simp only [List.length_cons, gt_iff_lt]; omega)]
    rw [List.dropLast_eq_take, heq]
    rfl

/-- C11 on a full list of 20 records: adding a 21st evicts the last one. -/
theorem history_capped_witness :
    (addRestoration ⟨99, "data:o", "/results/restored-99.png", some "fix_artifacts", "t"⟩
      ((List.range 20).map (fun n => Restoration.mk (Int.ofNat n) "o" "r" none "t"))).length ≤ 20 ∧
    addRestoration ⟨99, "data:o", "/results/restored-99.png", some "fix_artifacts", "t"⟩
      ((List.range 20).map (fun n => Restoration.mk (Int.ofNat n) "o" "r" none "t")) =
      ⟨99, "data:o", "/results/restored-99.png", some "fix_artifacts", "t"⟩ ::
        ((List.range 20).map (fun n => Restoration.mk (Int.ofNat n) "o" "r" none "t")).dropLast ∧
    (deleteRestoration 7 ((List.range 20).map (fun n => Restoration.mk (Int.ofNat n) "o" "r" none "t"))).length ≤ 20 ∧
    (historyRun [.add ⟨99, "data:o", "/results/restored-99.png", some "fix_artifacts", "t"⟩,
        .delete 7, .add ⟨100, "data:p", "/results/restored-100.png", none, "t"⟩]
      ((List.range 20).map (fun n => Restoration.mk (Int.ofNat n) "o" "r" none "t"))).length ≤ 20 :=
  have h := history_capped ((List.range 20).map (fun n => Restoration.mk (Int.ofNat n) "o" "r" none "t"))
    (by decide)
  ⟨(h.1 _).1, (h.1 _).2.2.2 (by decide), h.2.1 7, h.2.2 _⟩

/-! ### C12: a failure during a sweep run -/

/-- A listing in which the loop fails nowhere is swept without error. -/
theorem sweepList_no_fail (T : Int) (d : Store) (l : List File)
    (h : ∀ g ∈ l, failsAt T g = false) : (sweepList T d l).2.2 = none := by
  induction l with
  | nil => rfl
  | cons g rest ih =>
    have hg := h g (List.mem_cons_self g rest)
    have hrest : ∀ x ∈ rest, failsAt T x = false := fun x hx => h x (List.mem_cons_of_mem g hx)
    simp only [failsAt, Bool.or_eq_false_iff, Bool.and_eq_false_iff, decide_eq_false_iff_not] at hg
    obtain ⟨hst, hun⟩ := hg
    simp only [sweepList, hst, Bool.false_eq_true, if_false]
    by_cases hold : g.mtimeMs < (T : Rat)
    · have hun1 : g.unlinkFails = false := by
        rcases hun with hun | hun
        · exact absurd hold hun
        · exact hun
      simp only [hold, if_true, hun1, Bool.false_eq_true, if_false]
      exact ih hrest
    · simp only [hold, if_false]
      exact ih hrest

/-- The loop stops at the first entry it fails at: the older entries before
it are removed and reported, the entry itself and everything after it stay. -/
theorem sweepList_stop (T : Int) (d : Store) (pre post : List File) (f : File)
    (hpre : ∀ g ∈ pre, failsAt T g = false) (hf : failsAt T f = true) :
    (sweepList T d (pre ++ f :: post)).1 =
      pre.filter (fun g => decide ((T : Rat) ≤ g.mtimeMs)) ++ f :: post ∧
    (sweepList T d (pre ++ f :: post)).2.1 =
      (pre.filter (fun g => decide (g.mtimeMs < (T : Rat)))).map (fun g => Path.mk d g.name) ∧
    (sweepList T d (pre ++ f :: post)).2.2.isSome := by
  induction pre with
  | nil =>
    simp only [failsAt, Bool.or_eq_true, Bool.and_eq_true, decide_eq_true_eq] at hf
    simp only [List.nil_append, sweepList, List.filter_nil, List.map_nil]
    rcases hf with hst | ⟨hold, hun⟩
    · simp [hst]
    · cases hst : f.statFails with
      | true => simp
      | false => simp [hold, hun]
  | cons g rest ih =>
    have hg := hpre g (List.mem_cons_self g rest)
    have hrest : ∀ x ∈ rest, failsAt T x = false :=
      fun x hx => hpre x (List.mem_cons_of_mem g hx)
    obtain ⟨ih1, ih2, ih3⟩ := ih hrest
    simp only [failsAt, Bool.or_eq_false_iff, Bool.and_eq_false_iff, decide_eq_false_iff_not] at hg
    obtain ⟨hst, hun⟩ := hg
    simp only [List.cons_append, sweepList, hst, Bool.false_eq_true, if_false]
    have happ : rest.append (f :: post) = rest ++ f :: post := rfl
    by_cases hold : g.mtimeMs < (T : Rat)
    · have hun1 : g.unlinkFails = false := by
        rcases hun with hun | hun
        · exact absurd hold hun
        · exact hun
      simp only [hold, if_true, hun1, Bool.false_eq_true, if_false, happ]
      refine ⟨?_, ?_, ih3⟩
      · rw [ih1]; simp [List.filter_cons, not_le.mpr hold]
      · rw [ih2]; simp [List.filter_cons, hold]
    · simp only [hold, if_false, happ]
      refine ⟨?_, ?_, ih3⟩
      · rw [ih1]; simp [List.filter_cons, not_lt.mp hold]
      · rw [ih2]; simp [List.filter_cons, hold]

/-- C12 (as amended): on a well-formed file store, a failure to stat or
delete an entry during a sweep run is caught and logged (the callback does not
throw), and it ends the run. When the first failing entry is in the uploads
listing, the older entries listed before it are removed, that entry and the
entries after it stay, and the results directory is left as it is. When the
uploads listing has no failing entry and the first failing entry is in the
results listing, the uploads directory is swept in full, the older results
listed before the failing entry are removed, and that entry and the entries
after it stay. -/
theorem sweep_failure_ends_run (now : Int) (s : Stores) (hwf : s.WellFormed)
    (pre post : List File) (f : File)
    (hpre : ∀ g ∈ pre, failsAt (now - 3600000) g = false)
    (hf : failsAt (now - 3600000) f = true) :
    (s.uploads = some (pre ++ f :: post) →
      (sweep now s).error.isSome ∧
      (sweep now s).stores.uploads =
        some (pre.filter (fun g => decide (((now - 3600000 : Int) : Rat) ≤ g.mtimeMs))
          ++ f :: post) ∧
      (sweep now s).stores.results = s.results) ∧
    ((∀ g ∈ s.uploads.getD [], failsAt (now - 3600000) g = false) →
      s.results = some (pre ++ f :: post) →
      (sweep now s).error.isSome ∧
      (sweep now s).stores.uploads =
        s.uploads.map
          (List.filter (fun g => decide (((now - 3600000 : Int) : Rat) ≤ g.mtimeMs))) ∧
      (sweep now s).stores.results =
        some (pre.filter (fun g => decide (((now - 3600000 : Int) : Rat) ≤ g.mtimeMs))
          ++ f :: post)) := by
  have hT : now - 60 * 60 * 1000 = now - 3600000 := by norm_num
  rw [sweep_eq now s hwf, hT]
  constructor
  · intro hup
    obtain ⟨h1, _, h3⟩ := sweepList_stop (now - 3600000) .uploads pre post f hpre hf
    have herr : (sweepOption (now - 3600000) .uploads s.uploads).2.2.isSome := by
      rw [hup]; exact h3
    cases he : (sweepOption (now - 3600000) .uploads s.uploads).2.2 with
    | none => rw [he] at herr; simp at herr
    | some e =>
      simp only [Option.isSome_some, true_and]
      rw [hup]
      simp only [sweepOption, h1, and_self]
  · intro hnone hres
    have hu : (sweepOption (now - 3600000) .uploads s.uploads).2.2 = none := by
      cases hs : s.uploads with
      | none => rfl
      | some lu =>
        rw [hs] at hnone
        exact sweepList_no_fail _ _ lu (by simpa using hnone)
    obtain ⟨hu1, _⟩ := sweepOption_of_no_error _ _ _ hu
    obtain ⟨h1, _, h3⟩ := sweepList_stop (now - 3600000) .results pre post f hpre hf
    rw [hu]
    simp only
    rw [hres]
    exact ⟨h3, hu1, by simp only [sweepOption, h1]⟩

/-- C12 on a store whose second upload refuses to be unlinked, and on a store
whose second result refuses to be examined (clock reading 10000000, threshold
6400000): in both, the old entries listed after the failing one stay, and in
the first the old result stays too. -/
theorem sweep_failure_ends_run_witness :
    ((sweep 10000000
      ⟨some [⟨"upload-1-1.png", [1], 1000, false, false⟩,
          ⟨"upload-2-2.png", [2], 2000, false, true⟩,
          ⟨"upload-3-3.png", [3], 3000, false, false⟩],
        some [⟨"restored-4.png", [4], 4000, false, false⟩]⟩).error.isSome ∧
    (sweep 10000000
      ⟨some [⟨"upload-1-1.png", [1], 1000, false, false⟩,
          ⟨"upload-2-2.png", [2], 2000, false, true⟩,
          ⟨"upload-3-3.png", [3], 3000, false, false⟩],
        some [⟨"restored-4.png", [4], 4000, false, false⟩]⟩).stores =
      ⟨some [⟨"upload-2-2.png", [2], 2000, false, true⟩,
          ⟨"upload-3-3.png", [3], 3000, false, false⟩],
        some [⟨"restored-4.png", [4], 4000, false, false⟩]⟩) ∧
    ((sweep 10000000
      ⟨some [⟨"upload-1-1.png", [1], 1000, false, false⟩,
          ⟨"upload-9-2.png", [2], 9000000, false, false⟩],
        some [⟨"restored-4.png", [4], 4000, false, false⟩,
          ⟨"restored-5.png", [5], 5000, true, false⟩,
          ⟨"restored-6.png", [6], 6000, false, false⟩]⟩).error.isSome ∧
    (sweep 10000000
      ⟨some [⟨"upload-1-1.png", [1], 1000, false, false⟩,
          ⟨"upload-9-2.png", [2], 9000000, false, false⟩],
        some [⟨"restored-4.png", [4], 4000, false, false⟩,
          ⟨"restored-5.png", [5], 5000, true, false⟩,
          ⟨"restored-6.png", [6], 6000, false, false⟩]⟩).stores =
      ⟨some [⟨"upload-9-2.png", [2], 9000000, false, false⟩],
        some [⟨"restored-5.png", [5], 5000, true, false⟩,
          ⟨"restored-6.png", [6], 6000, false, false⟩]⟩) :=
  have h1 := (sweep_failure_ends_run 10000000
    ⟨some [⟨"upload-1-1.png", [1], 1000, false, false⟩,
        ⟨"upload-2-2.png", [2], 2000, false, true⟩,
        ⟨"upload-3-3.png", [3], 3000, false, false⟩],
      some [⟨"restored-4.png", [4], 4000, false, false⟩]⟩ (by decide)
    [⟨"upload-1-1.png", [1], 1000, false, false⟩] [⟨"upload-3-3.png", [3], 3000, false, false⟩]
    ⟨"upload-2-2.png", [2], 2000, false, true⟩ (by decide) (by decide)).1 rfl
  have h2 := (sweep_failure_ends_run 10000000
    ⟨some [⟨"upload-1-1.png", [1], 1000, false, false⟩,
        ⟨"upload-9-2.png", [2], 9000000, false, false⟩],
      some [⟨"restored-4.png", [4], 4000, false, false⟩,
        ⟨"restored-5.png", [5], 5000, true, false⟩,
        ⟨"restored-6.png", [6], 6000, false, false⟩]⟩ (by decide)
    [⟨"restored-4.png", [4], 4000, false, false⟩] [⟨"restored-6.png", [6], 6000, false, false⟩]
    ⟨"restored-5.png", [5], 5000, true, false⟩ (by decide) (by decide)).2 (by decide) rfl
  ⟨⟨h1.1, by decide⟩, ⟨h2.1, by decide⟩⟩

/-- C12 (as stated) fails: with an old upload that refuses to be unlinked
listed first, the old result, which refuses nothing, is still there after the
run. -/
theorem sweep_failure_isolated_counterexample :
    ¬ (∀ (now : Int) (s : Stores), s.WellFormed →
        ∀ (p : Path) (g : File), s.lookup p = some g →
          g.mtimeMs < ((now - 3600000 : Int) : Rat) →
          failsAt (now - 3600000) g = false →
          (sweep now s).stores.lookup p = none) := by
  intro h
  have h1 := h 10000000
    ⟨some [⟨"upload-2-2.png", [2], 2000, false, true⟩,
        ⟨"upload-3-3.png", [3], 3000, false, false⟩],
      some [⟨"restored-4.png", [4], 4000, false, false⟩]⟩ (by decide)
    ⟨.results, "restored-4.png"⟩ ⟨"restored-4.png", [4], 4000, false, false⟩
    (by decide) (by decide) (by decide)
  revert h1
  decide

end ImageRestorer
